import Mathlib

/-!
# Verification of the TinyMCE bootstrap5-components engine

A shallow embedding of the component registration, instantiation,
property-binding, placement and style subsystems of
`bootstrap5-components.js` and `component.js`, together with theorems
settling the specification claims.

Modelling conventions:
* JavaScript primitive values that flow through the property-binding layer
  are modelled by `JsPrim`; numbers are modelled as integers (the catalog
  only uses integral property values, and `parseFloat` is modelled on
  integral numerals).
* DOM elements are immutable trees (`DomNode`); attribute maps are
  association lists in insertion order.  In-place DOM mutation is modelled
  by returning the updated tree.
* `Math.random()`-based instance-id tokens are modelled by a fresh-counter
  supply threaded through the manager state (`nextId`); the generated
  token for counter `n` is `comp-<decimal n>`.
* Lifecycle callbacks (`onInsert`, `onUpdate`, `onRemove`, `onFocus`) are
  arbitrary host code and are modelled as opaque hook names whose
  invocations are recorded in an event log rather than executed.
* `console.error` / `console.warn` output is recorded in a console log.
-/

namespace TinyBS5

/-- JavaScript primitive values used by the property-binding layer. -/
inductive JsPrim where
  | num (n : Int)
  | str (s : String)
  | boolean (b : Bool)
  | nullv
  | undef
deriving DecidableEq, Repr

/-- JS truthiness on the modelled primitives (`0`, `""`, `false`,
`null`, `undefined` are falsy). -/
def jsTruthy : JsPrim → Bool
  | .num n => n != 0
  | .str s => s ≠ ""
  | .boolean b => b
  | .nullv => false
  | .undef => false

/-- Decimal digit to character, for rendering numbers the way JS
`String(n)` does. -/
def digitChar (d : Nat) : Char :=
  match d with
  | 0 => '0' | 1 => '1' | 2 => '2' | 3 => '3' | 4 => '4'
  | 5 => '5' | 6 => '6' | 7 => '7' | 8 => '8' | _ => '9'

/-- Character to decimal digit value (only used on `isDigit` characters). -/
def charDigit (c : Char) : Nat := c.toNat - 48

/-- Fuel-indexed big-endian decimal digits (structural recursion so that
concrete renderings evaluate by `rfl`; fuel `n + 1` always suffices). -/
def toDigitsBEFuel : Nat → Nat → List Char
  | 0, _ => []
  | fuel + 1, n =>
    if n < 10 then [digitChar n]
    else toDigitsBEFuel fuel (n / 10) ++ [digitChar (n % 10)]

/-- Big-endian decimal digits of a natural number
(models the decimal rendering performed by JS `String(n)`). -/
def toDigitsBE (n : Nat) : List Char := toDigitsBEFuel (n + 1) n

/-- Decimal rendering of a natural number. -/
def natToString (n : Nat) : String := String.mk (toDigitsBE n)

/-- Decimal rendering of an integer, as JS `String(n)` produces for an
integral number. -/
def intToString (n : Int) : String :=
  if n < 0 then "-" ++ natToString n.natAbs else natToString n.toNat

/-- JS `String(v)` coercion on the modelled primitives. -/
def jsString : JsPrim → String
  | .num n => intToString n
  | .str s => s
  | .boolean true => "true"
  | .boolean false => "false"
  | .nullv => "null"
  | .undef => "undefined"

/-- Value of a list of decimal digit characters, most significant first. -/
def digitsVal (cs : List Char) : Nat :=
  cs.foldl (fun a c => a * 10 + charDigit c) 0

/-- Character-list core of the `parseFloat` model: optional leading minus
sign, then a maximal digit prefix; no digits means `NaN`, modelled as
`none`. -/
def parseSignedDigits : List Char → Option Int
  | [] => none
  | c :: cs =>
    if c = '-' then
      match cs.takeWhile Char.isDigit with
      | [] => none
      | ds => some (-(digitsVal ds : Int))
    else
      match (c :: cs).takeWhile Char.isDigit with
      | [] => none
      | ds => some (digitsVal ds : Int)

/-- Model of JS `parseFloat` restricted to integral numerals.
(Fractional parts do not occur in the modelled catalog values.) -/
def jsParseFloat (s : String) : Option Int := parseSignedDigits s.data

theorem digitChar_isDigit {d : Nat} : (digitChar d).isDigit = true := by
  unfold digitChar
  split <;> decide

theorem charDigit_digitChar {d : Nat} (h : d < 10) : charDigit (digitChar d) = d := by
  interval_cases d <;> decide

theorem toDigitsBEFuel_ne_nil (fuel : Nat) :
    ∀ n, n < fuel → toDigitsBEFuel fuel n ≠ [] := by
  induction fuel with
  | zero => intro n h; omega
  | succ f ih =>
    intro n h
    by_cases h10 : n < 10
    · simp [toDigitsBEFuel, h10]
    · simp [toDigitsBEFuel, h10]

theorem toDigitsBE_ne_nil (n : Nat) : toDigitsBE n ≠ [] :=
  toDigitsBEFuel_ne_nil (n + 1) n (by omega)

theorem div10_lt_of_lt_succ {f n : Nat} (h : n < f + 1) (h10 : ¬ n < 10) :
    n / 10 < f :=
  lt_of_lt_of_le (Nat.div_lt_self (by omega) (by omega)) (by omega)

theorem toDigitsBEFuel_all_digits (fuel : Nat) :
    ∀ n, n < fuel → ∀ c ∈ toDigitsBEFuel fuel n, c.isDigit = true := by
  induction fuel with
  | zero => intro n h; omega
  | succ f ih =>
    intro n h c hc
    by_cases h10 : n < 10
    · simp [toDigitsBEFuel, h10] at hc
      subst hc
      exact digitChar_isDigit
    · simp only [toDigitsBEFuel, h10, if_false] at hc
      rcases List.mem_append.mp hc with h1 | h2
      · exact ih (n / 10) (div10_lt_of_lt_succ h h10) c h1
      · simp at h2
        subst h2
        exact digitChar_isDigit

theorem toDigitsBE_all_digits (n : Nat) : ∀ c ∈ toDigitsBE n, c.isDigit = true :=
  toDigitsBEFuel_all_digits (n + 1) n (by omega)

theorem digitsVal_append_one (cs : List Char) (c : Char) :
    digitsVal (cs ++ [c]) = digitsVal cs * 10 + charDigit c := by
  simp [digitsVal, List.foldl_append]

theorem digitsVal_toDigitsBEFuel (fuel : Nat) :
    ∀ n, n < fuel → digitsVal (toDigitsBEFuel fuel n) = n := by
  induction fuel with
  | zero => intro n h; omega
  | succ f ih =>
    intro n h
    by_cases h10 : n < 10
    · simp only [toDigitsBEFuel, h10, if_true]
      simp [digitsVal]
      interval_cases n <;> decide
    · simp only [toDigitsBEFuel, h10, if_false]
      rw [digitsVal_append_one, ih (n / 10) (div10_lt_of_lt_succ h h10),
        charDigit_digitChar (Nat.mod_lt _ (by omega))]
      omega

/-- Correctness of the decimal round trip: parsing the rendered digits of
`n` yields `n` back. -/
theorem digitsVal_toDigitsBE (n : Nat) : digitsVal (toDigitsBE n) = n :=
  digitsVal_toDigitsBEFuel (n + 1) n (by omega)

theorem takeWhile_isDigit_toDigitsBE (n : Nat) :
    (toDigitsBE n).takeWhile Char.isDigit = toDigitsBE n := by
  apply List.takeWhile_eq_self_iff.mpr
  exact fun c hc => toDigitsBE_all_digits n c hc

theorem toDigitsBE_head_ne_minus (n : Nat) :
    ∀ c cs, toDigitsBE n = c :: cs → c ≠ '-' := by
  intro c cs h
  have hd : c.isDigit = true := toDigitsBE_all_digits n c (h ▸ List.mem_cons_self c cs)
  intro hc
  subst hc
  simp [Char.isDigit] at hd

theorem parseSignedDigits_toDigitsBE (m : Nat) :
    parseSignedDigits (toDigitsBE m) = some (m : Int) := by
  rcases hne : toDigitsBE m with _ | ⟨c, cs⟩
  · exact absurd hne (toDigitsBE_ne_nil _)
  · have hc : c ≠ '-' := toDigitsBE_head_ne_minus m c cs hne
    have htw : (c :: cs).takeWhile Char.isDigit = c :: cs := by
      rw [← hne]
      exact takeWhile_isDigit_toDigitsBE m
    have hval : digitsVal (c :: cs) = m := by
      rw [← hne]
      exact digitsVal_toDigitsBE m
    simp [parseSignedDigits, if_neg hc, htw, hval]

theorem parseSignedDigits_neg_toDigitsBE (m : Nat) :
    parseSignedDigits ('-' :: toDigitsBE m) = some (-(m : Int)) := by
  rcases hne : toDigitsBE m with _ | ⟨c, cs⟩
  · exact absurd hne (toDigitsBE_ne_nil _)
  · have htw : (c :: cs).takeWhile Char.isDigit = c :: cs := by
      rw [← hne]
      exact takeWhile_isDigit_toDigitsBE m
    have hval : digitsVal (c :: cs) = m := by
      rw [← hne]
      exact digitsVal_toDigitsBE m
    simp [parseSignedDigits, htw, hval]

/-- `parseFloat` inverts the decimal rendering of any integer: the write /
read coercion pair is lossless on the numerals the engine itself writes. -/
theorem jsParseFloat_intToString (n : Int) : jsParseFloat (intToString n) = some n := by
  by_cases hneg : n < 0
  · have hdata : ("-" ++ natToString n.natAbs).data = '-' :: toDigitsBE n.natAbs := by
      have : ("-" ++ natToString n.natAbs).data = "-".data ++ (natToString n.natAbs).data :=
        String.data_append _ _
      simp only [natToString] at this
      exact this
    have : jsParseFloat (intToString n) = parseSignedDigits ('-' :: toDigitsBE n.natAbs) := by
      rw [jsParseFloat, intToString, if_pos hneg, hdata]
    rw [this, parseSignedDigits_neg_toDigitsBE]
    congr 1
    omega
  · have hdata : (natToString n.toNat).data = toDigitsBE n.toNat := rfl
    have : jsParseFloat (intToString n) = parseSignedDigits (toDigitsBE n.toNat) := by
      rw [jsParseFloat, intToString, if_neg hneg, hdata]
    rw [this, parseSignedDigits_toDigitsBE]
    congr 1
    omega

/-- The decimal rendering is injective (used for distinctness of generated
instance-id tokens). -/
theorem intToString_injective : Function.Injective intToString := by
  intro m n h
  have := jsParseFloat_intToString m
  rw [h, jsParseFloat_intToString n] at this
  exact (Option.some_injective _ this).symm

theorem natToString_injective : Function.Injective natToString := by
  intro m n h
  have hm : intToString (m : Int) = natToString m := by
    simp [intToString]
  have hn : intToString (n : Int) = natToString n := by
    simp [intToString]
  have := intToString_injective (hm.trans (h.trans hn.symm))
  omega

/-! ## DOM model

Elements are trees with a tag, an attribute association list (insertion
order) and a child list.  HTML comment nodes that appear in catalog markup
are inert for every modelled operation and are omitted. -/

inductive DomNode where
  | element (tag : String) (attrs : List (String × String)) (children : List DomNode)
  | text (s : String)

/-- Attribute lookup (`getAttribute`; `none` models a missing attribute). -/
def attrsGet (attrs : List (String × String)) (name : String) : Option String :=
  match attrs with
  | [] => none
  | (k, v) :: rest => if k = name then some v else attrsGet rest name

/-- Attribute update (`setAttribute`): replaces in place, else appends. -/
def attrsSet (attrs : List (String × String)) (name value : String) :
    List (String × String) :=
  match attrs with
  | [] => [(name, value)]
  | (k, v) :: rest =>
    if k = name then (k, value) :: rest else (k, v) :: attrsSet rest name value

/-- Attribute removal (`removeAttribute`). -/
def attrsRemove (attrs : List (String × String)) (name : String) :
    List (String × String) :=
  attrs.filter (fun kv => kv.1 ≠ name)

def DomNode.getAttr : DomNode → String → Option String
  | .element _ attrs _, name => attrsGet attrs name
  | .text _, _ => none

def DomNode.hasAttr (n : DomNode) (name : String) : Bool :=
  (n.getAttr name).isSome

def DomNode.setAttr : DomNode → String → String → DomNode
  | .element tag attrs children, name, value =>
    .element tag (attrsSet attrs name value) children
  | .text s, _, _ => .text s

def DomNode.removeAttr : DomNode → String → DomNode
  | .element tag attrs children, name => .element tag (attrsRemove attrs name) children
  | .text s, _ => .text s

def DomNode.isElement : DomNode → Bool
  | .element _ _ _ => true
  | .text _ => false

theorem attrsGet_attrsSet_same (attrs : List (String × String)) (name value : String) :
    attrsGet (attrsSet attrs name value) name = some value := by
  induction attrs with
  | nil => simp [attrsSet, attrsGet]
  | cons kv rest ih =>
    obtain ⟨k, v⟩ := kv
    by_cases h : k = name
    · simp [attrsSet, attrsGet, h]
    · simp [attrsSet, attrsGet, h, ih]

theorem attrsGet_attrsSet_other (attrs : List (String × String))
    (name value other : String) (hne : other ≠ name) :
    attrsGet (attrsSet attrs name value) other = attrsGet attrs other := by
  have hne2 : ¬(name = other) := fun h => hne h.symm
  induction attrs with
  | nil => simp [attrsSet, attrsGet, hne2]
  | cons kv rest ih =>
    obtain ⟨k, v⟩ := kv
    by_cases h : k = name
    · subst h
      simp [attrsSet, attrsGet, hne2]
    · by_cases h2 : k = other
      · subst h2
        simp [attrsSet, attrsGet, h]
      · simp [attrsSet, attrsGet, h, h2, ih]

theorem attrsGet_attrsRemove_same (attrs : List (String × String)) (name : String) :
    attrsGet (attrsRemove attrs name) name = none := by
  induction attrs with
  | nil => simp [attrsRemove, attrsGet]
  | cons kv rest ih =>
    obtain ⟨k, v⟩ := kv
    by_cases h : k = name
    · simpa [attrsRemove, attrsGet, h] using ih
    · simpa [attrsRemove, attrsGet, h] using ih

theorem getAttr_setAttr_same (n : DomNode) (name value : String)
    (h : n.isElement = true) : (n.setAttr name value).getAttr name = some value := by
  cases n with
  | element tag attrs children =>
    simp [DomNode.setAttr, DomNode.getAttr, attrsGet_attrsSet_same]
  | text s => simp [DomNode.isElement] at h

theorem getAttr_setAttr_other (n : DomNode) (name value other : String)
    (hne : other ≠ name) : (n.setAttr name value).getAttr other = n.getAttr other := by
  cases n with
  | element tag attrs children =>
    simp [DomNode.setAttr, DomNode.getAttr, attrsGet_attrsSet_other _ _ _ _ hne]
  | text s => simp [DomNode.setAttr, DomNode.getAttr]

/-! ## Property descriptors and the property-binding layer
(`_getPropertiesFromElement`, `_savePropertyToElement`,
bootstrap5-components.js lines 1124-1160). -/

/-- The part of a property descriptor that the binding layer looks at:
its schema `default` and its optional current `value` field (`none`
models an absent / `undefined` value, as produced by a fresh schema). -/
structure PropDef where
  default : JsPrim
  value : Option JsPrim := none
deriving DecidableEq, Repr

/-- `prop.value !== undefined ? prop.value : prop.default` -/
def propCurrent (p : PropDef) : JsPrim :=
  match p.value with
  | some .undef => p.default
  | some v => v
  | none => p.default

/-- `_savePropertyToElement(element, propName, value)`: `null`/`undefined`
removes the `data-prop-<name>` attribute, anything else stores the value's
JS string form. -/
def savePropertyToElement (element : DomNode) (propName : String) (value : JsPrim) :
    DomNode :=
  let dataAttr := "data-prop-" ++ propName
  match value with
  | .nullv => element.removeAttr dataAttr
  | .undef => element.removeAttr dataAttr
  | v => element.setAttr dataAttr (jsString v)

/-- Read coercion of one attribute value against one descriptor, following
the `typeof propDef.default` dispatch of `_getPropertiesFromElement`:
`number` defaults use `parseFloat(value) || default`, `boolean` defaults
use `value === "true"`, anything else uses `value || default || ""`. -/
def coerceRead (propDef : PropDef) (value : String) : JsPrim :=
  match propDef.default with
  | .num d =>
    match jsParseFloat value with
    | some n => if n = 0 then .num d else .num n
    | none => .num d
  | .boolean _ => .boolean (value = "true")
  | other =>
    if value ≠ "" then .str value
    else if jsTruthy other then other else .str ""

/-- `_getPropertiesFromElement(element, propertyDefs)`: one read per
descriptor; a missing `data-prop-<name>` attribute yields the schema
default, a present one is coerced by the descriptor's default type. -/
def getPropertiesFromElement (element : DomNode)
    (propertyDefs : List (String × PropDef)) : List (String × JsPrim) :=
  propertyDefs.map fun kp =>
    match element.getAttr ("data-prop-" ++ kp.1) with
    | some value => (kp.1, coerceRead kp.2 value)
    | none => (kp.1, kp.2.default)

/-! ## Component definitions (component.js) -/

/-- Generic association-list lookup (JS `Map.get` / object property read). -/
def assocGet {α : Type} (l : List (String × α)) (key : String) : Option α :=
  match l with
  | [] => none
  | (k, v) :: rest => if k = key then some v else assocGet rest key

/-- JS `Map.set`: replace the existing binding, else append. -/
def assocSet {α : Type} (l : List (String × α)) (key : String) (value : α) :
    List (String × α) :=
  match l with
  | [] => [(key, value)]
  | (k, v) :: rest =>
    if k = key then (k, value) :: rest else (k, v) :: assocSet rest key value

/-- JS `Set.add`: insertion-ordered set. -/
def addToSet (l : List String) (x : String) : List String :=
  if x ∈ l then l else l ++ [x]

/-- A DOM node together with its chain of ancestors, nearest first
(stands in for the parent links of a live DOM node). -/
structure Located where
  node : DomNode
  ancestors : List DomNode

/-- The shapes an `allowed` rule for a slot can take (object whose values
are ids, array of ids, or a single id string) — dispatch order as in
`isValidDropTarget`. -/
inductive AllowedRule where
  | obj (entries : List (String × String))
  | arr (ids : List String)
  | str (s : String)

/-- One named child entry inside a `children` slot configuration:
a bare id string (count 1), an `{id, count}` object, or a `{count}`
object keyed by the component id. -/
inductive ChildEntry where
  | strId (id : String)
  | idCount (id : String) (count : Nat)
  | countOnly (count : Nat)

/-- A `children` slot configuration: either a direct `{id, count}` fill
spec (with truthy `id` and `count`), or an object of named child entries.
`clearExisting` mirrors the special key of the same name. -/
inductive SlotCfg where
  | fill (id : String) (count : Nat) (clearExisting : Bool)
  | multi (clearExisting : Bool) (entries : List (String × ChildEntry))

/-- Content renderer: maps default property values to the parsed node
list of the markup string the JS `content` function returns (the
`temp.innerHTML` parse is folded into the function). -/
def ContentFn := List (String × JsPrim) → List DomNode

/-- A constructed `Component` instance (the fields the constructor
assigns).  Lifecycle hooks are opaque host code, modelled by name;
`onFocus` is an `Option` because the constructor never assigns such a
field (a JS property read then yields `undefined`). -/
structure Component where
  id : String
  name : String
  icon : String
  content : ContentFn
  editorStyle : String
  category : String
  properties : List (String × PropDef)
  allowed : List (String × AllowedRule)
  children : List (String × SlotCfg)
  restriction : Located → Bool
  onInsert : String
  onUpdate : String
  onRemove : String
  onFocus : Option String

/-- The configuration object passed to `new Component({...})`.  `none`
models an absent / `undefined` field.  `allowed` and `onFocus` appear
here because the catalog configurations pass them, even though the
constructor ignores them. -/
structure ComponentConfig where
  id : Option String := none
  name : Option String := none
  icon : Option String := none
  content : Option ContentFn := none
  editorStyle : Option String := none
  category : Option String := none
  restriction : Option (Located → Bool) := none
  onInsert : Option String := none
  onUpdate : Option String := none
  onRemove : Option String := none
  properties : List (String × PropDef) := []
  children : List (String × SlotCfg) := []
  allowed : Option (List (String × AllowedRule)) := none
  onFocus : Option String := none

/-- JS string truthiness of an optional string field. -/
def strTruthy : Option String → Bool
  | some s => s ≠ ""
  | none => false

/-- `x || dflt` for optional string fields. -/
def jsOrStr (o : Option String) (dflt : String) : String :=
  match o with
  | some s => if s = "" then dflt else s
  | none => dflt

/-- JS exception values. -/
inductive JsError where
  | error (msg : String)
  | typeError (msg : String)
  | syntaxError (msg : String)
deriving DecidableEq, Repr

/-- The field assignments of the `Component` constructor body.  Note that
`allowed` is always initialised to the empty collection (the constructor
never reads the configuration's `allowed`), and no `onFocus` field is
ever assigned. -/
def buildComponent (cfg : ComponentConfig) : Component where
  id := cfg.id.getD ""
  name := cfg.name.getD ""
  icon := jsOrStr cfg.icon ""
  content := cfg.content.getD (fun _ => [])
  editorStyle := jsOrStr cfg.editorStyle ""
  category := jsOrStr cfg.category "general"
  properties := cfg.properties
  allowed := []
  children := cfg.children
  restriction := cfg.restriction.getD (fun _ => true)
  onInsert := cfg.onInsert.getD "noop"
  onUpdate := cfg.onUpdate.getD "noop"
  onRemove := cfg.onRemove.getD "noop"
  onFocus := none

/-- `new Component(config)`: throws unless `id`, `name` and `content`
are all truthy. -/
def Component.construct (cfg : ComponentConfig) : Except JsError Component :=
  if strTruthy cfg.id && strTruthy cfg.name && cfg.content.isSome then
    .ok (buildComponent cfg)
  else
    .error (.error "Component requires id, name, and content")

/-! ## Manager state (ComponentsManager constructor fields) -/

inductive ConsoleEntry where
  | error (msg : String)
  | warn (msg : String)
deriving DecidableEq, Repr

/-- Recorded invocations of opaque host-code callbacks. -/
inductive MEvent where
  | hookOnInsert (componentId instanceId : String)
  | hookOnFocus (componentId hook : String)
  | styleUpdated (styleName : Option String) (style : String)
deriving DecidableEq, Repr

structure MState where
  components : List (String × Component) := []
  categories : List String := []
  editorStyles : List String := []
  styles : List (String × List (String × String)) := []
  selectedElement : Option DomNode := none
  nextId : Nat := 0
  events : List MEvent := []
  console : List ConsoleEntry := []

def pushError (st : MState) (msg : String) : MState :=
  { st with console := st.console ++ [.error msg] }

def pushWarn (st : MState) (msg : String) : MState :=
  { st with console := st.console ++ [.warn msg] }

def pushEvent (st : MState) (e : MEvent) : MState :=
  { st with events := st.events ++ [e] }

/-- `getComponent(id)`: `this.components.get(id) || null`. -/
def getComponent (st : MState) (id : String) : Option Component :=
  assocGet st.components id

/-- The argument of a `register` call: either a genuine `Component`
instance or any other JS value (modelled by its own fields), which fails
the `instanceof Component` check. -/
inductive RegisterArg where
  | comp (c : Component)
  | plain (fields : List (String × String))

/-- `register(component)` (bootstrap5-components.js lines 1166-1192).
`injectEditorStyles` and `renderComponentsPanel` touch only host-editor
UI; their manager-visible effect is the `editorStyles` set. -/
def register (arg : RegisterArg) (st : MState) : Bool × MState :=
  match arg with
  | .plain _ => (false, pushError st "Can only register instances of Component")
  | .comp component =>
    if (assocGet st.components component.id).isSome then
      (false, pushWarn st
        ("Component with ID \"" ++ component.id ++ "\" is already registered"))
    else
      let st1 := { st with
        components := st.components ++ [(component.id, component)]
        categories := addToSet st.categories
          (if component.category = "" then "General" else component.category) }
      let st2 :=
        if component.editorStyle ≠ "" then
          { st1 with editorStyles := addToSet st1.editorStyles component.editorStyle }
        else st1
      (true, st2)

/-- The registration path of the catalog: construct, then register
(`componentsManager.register(new Component({...}))`). -/
def registerDefinition (cfg : ComponentConfig) (st : MState) :
    Except JsError (Bool × MState) :=
  (Component.construct cfg).map (fun c => register (.comp c) st)

/-! ## Style registry (addStyle / applyStyle / removeStyles /
getCurrentStyle, bootstrap5-components.js lines 1200-1340)

An element's inline `CSSStyleDeclaration` is modelled as the declaration
list itself; assigning `style.cssText` from a serialized declaration set
is modelled as installing that set (browser reparsing is the identity on
well-formed declarations). -/

/-- `addStyle(name, style)` (valid-argument path): `Map.set` of a copy. -/
def addStyle (st : MState) (name : String) (style : List (String × String)) : MState :=
  { st with styles := assocSet st.styles name style }

/-- The `styleString` applyStyle builds from a style object. -/
def styleToCss (style : List (String × String)) : String :=
  style.foldl (fun acc pv => acc ++ pv.1 ++ ":" ++ pv.2 ++ ";") ""

/-- `applyStyle(styleName, element)`: returns the success flag and the
element's new inline declaration set.  The unconditional
`updatePropertiesPanel()` call passes no element and is a no-op. -/
def applyStyle (st : MState) (styleName : String)
    (element : Option (List (String × String))) :
    Bool × Option (List (String × String)) × MState :=
  match element with
  | none => (false, none, st)
  | some decls =>
    match assocGet st.styles styleName with
    | none => (false, some decls, st)
    | some style =>
      let styleString := styleToCss style
      (true, some style, pushEvent st (.styleUpdated (some styleName) styleString))

/-- `removeStyles(element)`: `removeAttribute("style")` clears the whole
inline declaration set. -/
def removeStyles (st : MState) (element : Option (List (String × String))) :
    Option (List (String × String)) × MState :=
  match element with
  | none => (none, st)
  | some _ => (some [], pushEvent st (.styleUpdated none ""))

/-- `_stylesMatch(style1, style2)`: same key count and, for every key of
`style1`, equal values in `style2` (string-valued declarations make the
`===` and `toString()` comparisons coincide). -/
def stylesMatch (style1 style2 : List (String × String)) : Bool :=
  style1.length == style2.length &&
  style1.all (fun kv =>
    match assocGet style2 kv.1 with
    | some v => kv.2 == v
    | none => false)

/-- `getCurrentStyle(element)`: first registered style whose declarations
match the element's inline declarations, else `null`. -/
def getCurrentStyle (st : MState) (element : Option (List (String × String))) :
    Option String :=
  match element with
  | none => none
  | some inline =>
    (st.styles.find? (fun ns => stylesMatch ns.2 inline)).map (·.1)

/-! ## Placement engine (isValidDropTarget,
bootstrap5-components.js lines 1857-1912) -/

/-- `target.closest("[data-component]")` over the node-plus-ancestors
chain. -/
def closestComponent : List DomNode → Option DomNode
  | [] => none
  | n :: rest => if n.hasAttr "data-component" then some n else closestComponent rest

/-- `isValidDropTarget(target, component)`.  A text-node target is
normalized to its parent.  After the constructor, `restriction` is always
a function, so the trailing `return true` of the source is unreachable. -/
def isValidDropTarget (st : MState) (target : Located) (component : Option Component) :
    Bool :=
  match component with
  | none => false
  | some c =>
    let tgt : Located :=
      match target.node, target.ancestors with
      | .text _, p :: rest => ⟨p, rest⟩
      | _, _ => target
    if tgt.node.hasAttr "data-component-children" then
      let containerName := (tgt.node.getAttr "data-component-children").getD ""
      match closestComponent (tgt.node :: tgt.ancestors) with
      | some parentComponentElement =>
        match getComponent st
            ((parentComponentElement.getAttr "data-component").getD "") with
        | some parentComponent =>
          match assocGet parentComponent.allowed containerName with
          | some allowedComponents =>
            match allowedComponents with
            | .obj entries => (entries.map Prod.snd).contains c.id
            | .arr ids => ids.contains c.id
            | .str s => s == c.id
          | none => c.restriction tgt
        | none => c.restriction tgt
      | none => c.restriction tgt
    else c.restriction tgt

/-! ## Selection (selectElement, bootstrap5-components.js lines 2097-2142)

`updatePropertiesPanel()` is always called without an element argument
and immediately returns, so it has no modelled effect.  Node identity
(`===`) and `isEqualNode` both collapse to structural equality in the
tree model. -/

mutual
/-- Structural node equality, standing in for `isEqualNode`. -/
def nodeEq : DomNode → DomNode → Bool
  | .text s, .text t => s == t
  | .element t1 a1 c1, .element t2 a2 c2 => t1 == t2 && a1 == a2 && nodesEq c1 c2
  | _, _ => false

/-- Structural equality of child lists. -/
def nodesEq : List DomNode → List DomNode → Bool
  | [], [] => true
  | n :: ns, m :: ms => nodeEq n m && nodesEq ns ms
  | _, _ => false
end

/-- The `try` body of `selectElement`. -/
def selectElementCore (st : MState) (element : Option DomNode) :
    Except JsError MState :=
  match element with
  | none => .ok { st with selectedElement := none }
  | some el =>
    if el.isElement then
      match st.selectedElement with
      | some prev =>
        if nodeEq prev el then .ok st
        else
          if el.hasAttr "data-component" then
            match getComponent st ((el.getAttr "data-component").getD "") with
            | none => .error (.typeError "Cannot read properties of null")
            | some componentDef =>
              let st1 :=
                match componentDef.onFocus with
                | some hook => pushEvent st (.hookOnFocus componentDef.id hook)
                | none => st
              .ok { st1 with selectedElement := some el }
          else .ok { st with selectedElement := some el }
      | none =>
        if el.hasAttr "data-component" then
          .error (.typeError
            "Cannot read properties of null (reading isEqualNode)")
        else .ok { st with selectedElement := some el }
    else
      -- non-element nodes fall back to the host editor selection; the
      -- claims only exercise element nodes, for which this branch is dead
      .ok st

/-- `selectElement(element)`: the surrounding `try`/`catch` turns any
internal exception into a `console.error`, leaving the selection
unchanged (no state was mutated before the throwing reads). -/
def selectElement (st : MState) (element : Option DomNode) : MState :=
  match selectElementCore st element with
  | .ok st1 => st1
  | .error _ => pushError st "Error in selectElement:"

/-! ## Instantiation engine (insertComponent / _addChildComponents,
bootstrap5-components.js lines 1921-2076)

`insertComponent` is modelled compositionally: `instantiate` builds the
fully slot-filled root subtree (the in-place mutations of the JS code
applied before the root is attached), and child insertion appends built
roots into their container.  The `Math.random()` instance-id token is
modelled by the `nextId` counter.  Fuel bounds the component-nesting
recursion (the JS code does not terminate on cyclic slot specs). -/

/-- Matches the `br[data-mce-bogus="1"]` selector. -/
def isBogusBr : DomNode → Bool
  | .element tag attrs _ => tag == "br" && attrsGet attrs "data-mce-bogus" == some "1"
  | .text _ => false

mutual
/-- Removal of all bogus `<br>` descendants. -/
def scrubNode : DomNode → DomNode
  | .element tag attrs children => .element tag attrs (scrubList children)
  | .text s => .text s

def scrubList : List DomNode → List DomNode
  | [] => []
  | n :: ns => if isBogusBr n then scrubList ns else scrubNode n :: scrubList ns
end

mutual
theorem scrubNode_sizeOf_le : ∀ n : DomNode, sizeOf (scrubNode n) ≤ sizeOf n
  | .element tag attrs children => by
    have h := scrubList_sizeOf_le children
    simp only [scrubNode, DomNode.element.sizeOf_spec]
    omega
  | .text s => by simp [scrubNode]

theorem scrubList_sizeOf_le : ∀ l : List DomNode, sizeOf (scrubList l) ≤ sizeOf l
  | [] => by simp [scrubList]
  | n :: ns => by
    have h1 := scrubNode_sizeOf_le n
    have h2 := scrubList_sizeOf_le ns
    simp only [scrubList]
    split
    · simp only [List.cons.sizeOf_spec]
      omega
    · simp only [List.cons.sizeOf_spec]
      omega
end

/-- `fragment.firstElementChild`. -/
def firstElementChild : List DomNode → Option DomNode
  | [] => none
  | n :: ns => if n.isElement then some n else firstElementChild ns

/-- The generated instance-id token (`comp-` plus a fresh token from the
modelled random supply). -/
def mkInstanceId (n : Nat) : String := "comp-" ++ natToString n

/-- The property-stamping loop of `insertComponent`: one
`data-prop-<name>` attribute per property whose current/default value is
not `undefined`. -/
def writeDataProps (props : List (String × PropDef)) (r : DomNode) : DomNode :=
  props.foldl (fun r kp =>
    match propCurrent kp.2 with
    | .undef => r
    | v => r.setAttr ("data-prop-" ++ kp.1) (jsString v)) r

/-- Schema defaults of the three coercible kinds (the defaults the
catalog declares). -/
def isDefinedDefault : JsPrim → Bool
  | .num _ => true
  | .str _ => true
  | .boolean _ => true
  | .nullv => false
  | .undef => false

/-- The `for (let i = 0; i < count; i++) insertComponent(child, container,
true)` loop: each successful child build first removes bogus `<br>`
elements from the container, then appends the built root.  The container
children are carried as (pre-existing children, appended fills); the JS
per-insert scrub also rescans previously appended fills, which differs
only if a component's own content contains `data-mce-bogus` markers. -/
def insertChildFills (inst : MState → Component → Option DomNode × MState)
    (childComponent : Component) :
    Nat → List DomNode × List DomNode → MState → (List DomNode × List DomNode) × MState
  | 0, acc, st => (acc, st)
  | count + 1, acc, st =>
    match inst st childComponent with
    | (some root, st1) =>
      insertChildFills inst childComponent count (scrubList acc.1, acc.2 ++ [root]) st1
    | (none, st1) => insertChildFills inst childComponent count acc st1

/-- `insertChildComponent(container, containerConfig)`: unknown component
ids are ignored. -/
def fillFromId (inst : MState → Component → Option DomNode × MState)
    (id : String) (count : Nat) (acc : List DomNode × List DomNode) (st : MState) :
    (List DomNode × List DomNode) × MState :=
  match getComponent st id with
  | some childComponent => insertChildFills inst childComponent count acc st
  | none => (acc, st)

/-- The `Object.entries(containerConfig).forEach` loop over named child
entries (the `clearExisting` key is handled by the caller). -/
def applyEntries (inst : MState → Component → Option DomNode × MState) :
    List (String × ChildEntry) → (List DomNode × List DomNode) → MState →
    (List DomNode × List DomNode) × MState
  | [], acc, st => (acc, st)
  | (childName, entry) :: rest, acc, st =>
    let step :=
      match entry with
      | .strId id => fillFromId inst id 1 acc st
      | .idCount id count =>
        if id ≠ "" ∧ count ≠ 0 then fillFromId inst id count acc st
        else if count ≠ 0 then fillFromId inst childName count acc st
        else (acc, st)
      | .countOnly count =>
        if count ≠ 0 then fillFromId inst childName count acc st else (acc, st)
    applyEntries inst rest step.1 step.2

/-- Processing of one slot container against its configuration:
`clearExisting` empties the container first, then the fill spec is
applied.  A `{id, count}` spec with falsy members degenerates to the
generic entry iteration, where its `id` key reads as a bare string
entry. -/
def applyCfg (inst : MState → Component → Option DomNode × MState)
    (cfg : SlotCfg) (kids : List DomNode) (st : MState) :
    (List DomNode × List DomNode) × MState :=
  match cfg with
  | .fill id count clearExisting =>
    let base := if clearExisting then [] else kids
    if id ≠ "" ∧ count ≠ 0 then fillFromId inst id count (base, []) st
    else applyEntries inst [("id", .strId id)] (base, []) st
  | .multi clearExisting entries =>
    let base := if clearExisting then [] else kids
    applyEntries inst entries (base, []) st

theorem insertChildFills_base_sizeOf_le
    (inst : MState → Component → Option DomNode × MState) (childComponent : Component) :
    ∀ (count : Nat) (acc : List DomNode × List DomNode) (st : MState),
    sizeOf (insertChildFills inst childComponent count acc st).1.1 ≤ sizeOf acc.1 := by
  intro count
  induction count with
  | zero => intro acc st; simp [insertChildFills]
  | succ k ih =>
    intro acc st
    rcases h : inst st childComponent with ⟨rootOpt, st1⟩
    cases rootOpt with
    | some root =>
      calc sizeOf (insertChildFills inst childComponent (k + 1) acc st).1.1
          = sizeOf (insertChildFills inst childComponent k
              (scrubList acc.1, acc.2 ++ [root]) st1).1.1 := by
            simp [insertChildFills, h]
        _ ≤ sizeOf (scrubList acc.1) := ih _ _
        _ ≤ sizeOf acc.1 := scrubList_sizeOf_le _
    | none =>
      calc sizeOf (insertChildFills inst childComponent (k + 1) acc st).1.1
          = sizeOf (insertChildFills inst childComponent k acc st1).1.1 := by
            simp [insertChildFills, h]
        _ ≤ sizeOf acc.1 := ih _ _

theorem fillFromId_base_sizeOf_le
    (inst : MState → Component → Option DomNode × MState)
    (id : String) (count : Nat) (acc : List DomNode × List DomNode) (st : MState) :
    sizeOf (fillFromId inst id count acc st).1.1 ≤ sizeOf acc.1 := by
  unfold fillFromId
  rcases getComponent st id with _ | c
  · simp
  · exact insertChildFills_base_sizeOf_le inst c count acc st

theorem applyEntries_base_sizeOf_le
    (inst : MState → Component → Option DomNode × MState) :
    ∀ (entries : List (String × ChildEntry)) (acc : List DomNode × List DomNode)
      (st : MState),
    sizeOf (applyEntries inst entries acc st).1.1 ≤ sizeOf acc.1 := by
  intro entries
  induction entries with
  | nil => intro acc st; simp [applyEntries]
  | cons e rest ih =>
    intro acc st
    obtain ⟨childName, entry⟩ := e
    have hstep : ∀ step : (List DomNode × List DomNode) × MState,
        sizeOf step.1.1 ≤ sizeOf acc.1 →
        sizeOf (applyEntries inst rest step.1 step.2).1.1 ≤ sizeOf acc.1 :=
      fun step hle => le_trans (ih step.1 step.2) hle
    cases entry with
    | strId id =>
      simp only [applyEntries]
      exact hstep _ (fillFromId_base_sizeOf_le inst id 1 acc st)
    | idCount id count =>
      simp only [applyEntries]
      split
      · exact hstep _ (fillFromId_base_sizeOf_le inst id count acc st)
      · split
        · exact hstep _ (fillFromId_base_sizeOf_le inst childName count acc st)
        · exact hstep _ (le_refl _)
    | countOnly count =>
      simp only [applyEntries]
      split
      · exact hstep _ (fillFromId_base_sizeOf_le inst childName count acc st)
      · exact hstep _ (le_refl _)

theorem one_le_sizeOf_domList (l : List DomNode) : 1 ≤ sizeOf l := by
  cases l with
  | nil => simp
  | cons n ns =>
    simp only [List.cons.sizeOf_spec]
    omega

/-- The slot configuration a container element selects: its
`data-component-children` name looked up in the `children` spec (`none`
when the element is no container or no configuration matches — both
cases leave the container itself untouched). -/
def slotCfgOf (spec : List (String × SlotCfg)) (attrs : List (String × String)) :
    Option SlotCfg :=
  match attrsGet attrs "data-component-children" with
  | some containerName => assocGet spec containerName
  | none => none

theorem applyCfg_base_sizeOf_le
    (inst : MState → Component → Option DomNode × MState)
    (cfg : SlotCfg) (kids : List DomNode) (st : MState) :
    sizeOf (applyCfg inst cfg kids st).1.1 ≤ sizeOf kids := by
  have hbase : ∀ b : Bool, sizeOf (if b then ([] : List DomNode) else kids) ≤ sizeOf kids := by
    intro b
    cases b
    · simp
    · have := one_le_sizeOf_domList kids
      simpa using this
  cases cfg with
  | fill id count clearExisting =>
    simp only [applyCfg]
    split
    · exact le_trans (fillFromId_base_sizeOf_le inst id count _ st) (hbase _)
    · exact le_trans (applyEntries_base_sizeOf_le inst _ _ st) (hbase _)
  | multi clearExisting entries =>
    simp only [applyCfg]
    exact le_trans (applyEntries_base_sizeOf_le inst entries _ st) (hbase _)

mutual
/-- Slot filling over the `querySelectorAll("[data-component-children]")`
snapshot: every descendant container with a matching slot configuration
receives its fills (appended after its remaining original children);
containers are processed in document order, and freshly appended fills
are never re-scanned (the JS NodeList is a static snapshot). -/
def fillNode (inst : MState → Component → Option DomNode × MState)
    (spec : List (String × SlotCfg)) : DomNode → MState → DomNode × MState
  | .text s, st => (.text s, st)
  | .element tag attrs kids, st =>
    let r :=
      match slotCfgOf spec attrs with
      | some cfg =>
        let r1 := applyCfg inst cfg kids st
        let r2 := fillList inst spec r1.1.1 r1.2
        (r2.1 ++ r1.1.2, r2.2)
      | none => fillList inst spec kids st
    (.element tag attrs r.1, r.2)
termination_by n _ => sizeOf n
decreasing_by
  · simp only [DomNode.element.sizeOf_spec]
    have := applyCfg_base_sizeOf_le inst cfg kids st
    omega
  · simp only [DomNode.element.sizeOf_spec]
    omega

def fillList (inst : MState → Component → Option DomNode × MState)
    (spec : List (String × SlotCfg)) : List DomNode → MState → List DomNode × MState
  | [], st => ([], st)
  | n :: ns, st =>
    let r1 := fillNode inst spec n st
    let r2 := fillList inst spec ns r1.2
    (r1.1 :: r2.1, r2.2)
termination_by l _ => sizeOf l
decreasing_by
  · simp only [List.cons.sizeOf_spec]
    omega
  · simp only [List.cons.sizeOf_spec]
    omega
end

/-- Processing of the root itself when it is a slot container
(`containers = [parentElement]`): its configuration's fills are appended,
and nested containers are not visited. -/
def rootContainerFills (inst : MState → Component → Option DomNode × MState)
    (spec : List (String × SlotCfg)) (containerName : String)
    (kids : List DomNode) (st : MState) : List DomNode × MState :=
  match assocGet spec containerName with
  | some cfg =>
    let r1 := applyCfg inst cfg kids st
    (r1.1.1 ++ r1.1.2, r1.2)
  | none => (kids, st)

/-- `_addChildComponents(component, rootElement)`: when the root itself is
a slot container, only the root is processed; otherwise the
`querySelectorAll` snapshot of descendant containers is processed. -/
def addChildComponents (inst : MState → Component → Option DomNode × MState)
    (spec : List (String × SlotCfg)) (root : DomNode) (st : MState) :
    DomNode × MState :=
  match root with
  | .text s => (.text s, st)
  | .element tag attrs kids =>
    let r :=
      match attrsGet attrs "data-component-children" with
      | some containerName => rootContainerFills inst spec containerName kids st
      -- otherwise the querySelectorAll descendant snapshot is processed
      -- (the root itself carries no slot attribute in this branch)
      | none => fillList inst spec kids st
    (.element tag attrs r.1, r.2)

/-- `insertComponent` up to attachment of the root into the host
document: generates the instance id, renders `content` with the current /
default property values, stamps `data-component`, `data-instance-id` and
the `data-prop-*` attributes (skipping `undefined` values), recursively
fills child slots, records the `onInsert` invocation and marks the root
draggable.  Fuel `0` aborts (the JS code diverges on cyclic specs). -/
def instantiate : Nat → MState → Component → Option DomNode × MState
  | 0, st, _ => (none, st)
  | fuel + 1, st, component =>
    let instanceId := mkInstanceId st.nextId
    let st0 := { st with nextId := st.nextId + 1 }
    let defaultProps := component.properties.map (fun kp => (kp.1, propCurrent kp.2))
    let nodes := component.content defaultProps
    match firstElementChild nodes with
    | none =>
      (none, pushError st0
        ("Component \"" ++ component.name ++ "\" did not generate any HTML"))
    | some rootElement =>
      let root1 := (rootElement.setAttr "data-component" component.id).setAttr
        "data-instance-id" instanceId
      let root2 := writeDataProps component.properties root1
      let r := addChildComponents (fun st1 c => instantiate fuel st1 c)
        component.children root2 st0
      let st2 := pushEvent r.2 (.hookOnInsert component.id instanceId)
      let root4 := r.1.setAttr "draggable" "true"
      (some root4, st2)

/-! ## Filtered output (getFilteredHtml,
bootstrap5-components.js lines 3772-3803)

`editor.getContent()` followed by the `temp.innerHTML` reparse is the
identity on the tree model.  `querySelectorAll` first parses its selector
list; an invalid selector throws a `SyntaxError` before any matching. -/

def serializeAttrs (attrs : List (String × String)) : String :=
  attrs.foldl (fun acc kv => acc ++ " " ++ kv.1 ++ "=\"" ++ kv.2 ++ "\"") ""

mutual
/-- HTML serialization of the tree model (`temp.innerHTML` read). -/
def serializeNode : DomNode → String
  | .element tag attrs children =>
    "<" ++ tag ++ serializeAttrs attrs ++ ">" ++ serializeList children ++
      "</" ++ tag ++ ">"
  | .text s => s

def serializeList : List DomNode → String
  | [] => ""
  | n :: ns => serializeNode n ++ serializeList ns
end

/-- Characters allowed in a CSS attribute name inside `[...]`. -/
def isSelectorIdentChar (c : Char) : Bool :=
  c.isAlpha || c.isDigit || c == '-' || c == '_'

/-- Splitting a selector list at every `", "` separator. -/
def splitOnCommaSpace : List Char → List (List Char)
  | [] => [[]]
  | ',' :: ' ' :: rest => [] :: splitOnCommaSpace rest
  | c :: rest =>
    match splitOnCommaSpace rest with
    | [] => [[c]]
    | g :: gs => (c :: g) :: gs

/-- Validity of one `[name]` attribute-presence selector: the bracketed
name must be a CSS identifier (`*` is not allowed in attribute-name
position, which is what makes `[data-prop-*]` a parse error). -/
def validAttrSelectorChars (cs : List Char) : Bool :=
  match cs with
  | '[' :: rest =>
    match rest.reverse with
    | ']' :: midRev =>
      let mid := midRev.reverse
      mid ≠ [] && mid.all isSelectorIdentChar
    | _ => false
  | _ => false

/-- Validity of a comma-separated selector list of `[name]` selectors. -/
def validSelectorList (s : String) : Bool :=
  (splitOnCommaSpace s.data).all validAttrSelectorChars

/-- The attribute name of one `[name]` selector (brackets stripped). -/
def attrNameOfSelector (cs : List Char) : List Char := (cs.drop 1).dropLast

/-- The attribute names of a `[name]` selector list. -/
def selectorAttrNames (s : String) : List String :=
  (splitOnCommaSpace s.data).map (fun cs => String.mk (attrNameOfSelector cs))

/-- The attribute removals `getFilteredHtml` performs on one matched
element: `data-component`, `data-instance-id`, `draggable`, then every
`data-prop-*` attribute. -/
def cleanAttrs (attrs : List (String × String)) : List (String × String) :=
  (attrsRemove (attrsRemove (attrsRemove attrs "data-component")
    "data-instance-id") "draggable").filter
      (fun kv => ¬ kv.1.startsWith "data-prop-")

mutual
/-- Attribute stripping over every element matched by the selector list. -/
def cleanNode (names : List String) : DomNode → DomNode
  | .element tag attrs children =>
    let attrs2 :=
      if names.any (fun a => (attrsGet attrs a).isSome) then cleanAttrs attrs
      else attrs
    .element tag attrs2 (cleanList names children)
  | .text s => .text s

def cleanList (names : List String) : List DomNode → List DomNode
  | [] => []
  | n :: ns => cleanNode names n :: cleanList names ns
end

/-- The selector-list literal of `getFilteredHtml`. -/
def filteredHtmlSelector : String :=
  "[data-component], [data-instance-id], [data-prop-*], [draggable]"

/-- `getFilteredHtml()` on the current editor document. -/
def getFilteredHtml (doc : List DomNode) : Except JsError String :=
  if validSelectorList filteredHtmlSelector then
    .ok (serializeList (cleanList (selectorAttrNames filteredHtmlSelector) doc))
  else
    .error (.syntaxError
      ("Failed to execute querySelectorAll on Element: '" ++
        filteredHtmlSelector ++ "' is not a valid selector"))

/-! ## Concrete catalog data used by the claim scenarios

Transcriptions of catalog entries from `bs5_components_init` (the
property descriptors keep only the fields the binding layer reads; HTML
comment placeholders in content markup are inert and omitted). -/

/-- The `alert` catalog configuration (bootstrap5-components.js
lines 116-148). -/
def cfgAlert : ComponentConfig where
  id := some "alert"
  name := some "Alert"
  icon := some "⚠️"
  category := some "Basic"
  content := some (fun props =>
    let s := jsString ((assocGet props "alertStyle").getD .undef)
    [.element "div" [("class", "alert " ++ s)]
      [.text ("This is a " ++ s ++ " alert—check it out!")]])
  properties := [("alertStyle", { default := .str "alert-primary" })]
  onUpdate := some "alertOnUpdate"

/-- The `button-group` catalog configuration (bootstrap5-components.js
lines 95-114); note the `allowed` rule it declares for its `default`
slot. -/
def cfgButtonGroup : ComponentConfig where
  id := some "button-group"
  name := some "Button Group"
  icon := some ""
  category := some "Basic"
  content := some (fun _ =>
    [.element "div"
      [("class", "btn-group"), ("role", "group"),
        ("data-component-children", "default")] []])
  children := [("default", .fill "button" 3 false)]
  allowed := some [("default", .str "button")]

/-- A second definition reusing the id `alert` (duplicate-registration
scenario). -/
def cfgAlertClone : ComponentConfig where
  id := some "alert"
  name := some "Alert Clone"
  content := some (fun _ => [.element "div" [("class", "alert")] []])

/-- A definition missing its required `id` field. -/
def cfgMissingId : ComponentConfig where
  name := some "Broken"
  content := some (fun _ => [.element "div" [] []])

/-- A definition passing an `onFocus` callback to the constructor, the
shape of the catalog's layered-panel entry (bootstrap5-components.js
line 4235). -/
def cfgFocusCard : ComponentConfig where
  id := some "focus-card"
  name := some "Focus Card"
  content := some (fun _ => [.element "div" [("class", "card")] []])
  onFocus := some "wireLayers"

/-- A leaf component for slot-fill scenarios. -/
def cfgLeaf : ComponentConfig where
  id := some "leaf"
  name := some "Leaf"
  content := some (fun _ => [.element "span" [("class", "leaf")] []])

/-- A parent whose `children` spec requests three `leaf` fills in its
`default` slot. -/
def cfgTriple : ComponentConfig where
  id := some "triple"
  name := some "Triple"
  content := some (fun _ =>
    [.element "div" [("data-component-children", "default")] []])
  children := [("default", .fill "leaf" 3 false)]

/-- A component with one property of each coercible default type. -/
def cfgGauge : ComponentConfig where
  id := some "gauge"
  name := some "Gauge"
  content := some (fun _ => [.element "div" [("class", "gauge")] []])
  properties :=
    [("level", { default := .num 5 }),
     ("labelText", { default := .str "Hi" }),
     ("activeFlag", { default := .boolean false })]

def alertComp : Component := buildComponent cfgAlert
def buttonGroupComp : Component := buildComponent cfgButtonGroup
def focusCardComp : Component := buildComponent cfgFocusCard
def leafComp : Component := buildComponent cfgLeaf
def tripleComp : Component := buildComponent cfgTriple
def gaugeComp : Component := buildComponent cfgGauge

/-- Manager state with the alert and button-group definitions registered. -/
def stDropScenario : MState :=
  (register (.comp buttonGroupComp) ((register (.comp alertComp) {}).2)).2

/-- A freshly inserted `button-group` slot element (its root is the
`default` slot container), located inside the document body. -/
def bgSlotLocated : Located where
  node := .element "div"
    [("class", "btn-group"), ("role", "group"),
      ("data-component-children", "default"),
      ("data-component", "button-group"), ("data-instance-id", "comp-0"),
      ("draggable", "true")] []
  ancestors := [.element "body" [] []]

/-- Manager state with the focus-card definition registered. -/
def stFocusBase : MState := (register (.comp focusCardComp) {}).2

/-- A plain paragraph, selected first so that a previous selection
exists. -/
def plainP : DomNode := .element "p" [] [.text "hello"]

def stFocusSelected : MState := selectElement stFocusBase (some plainP)

/-- A live focus-card instance element. -/
def focusCardEl : DomNode :=
  .element "div" [("class", "card"), ("data-component", "focus-card"),
    ("data-instance-id", "comp-0"), ("draggable", "true")] []

/-- Style registry holding two distinct names with identical declaration
sets. -/
def stTwinStyles : MState :=
  addStyle (addStyle {} "primary" [("color", "red")]) "accent" [("color", "red")]

/-! ## General lemmas -/

theorem assocGet_append {α : Type} (l1 l2 : List (String × α)) (k : String) :
    assocGet (l1 ++ l2) k =
      match assocGet l1 k with
      | some v => some v
      | none => assocGet l2 k := by
  induction l1 with
  | nil => simp [assocGet]
  | cons kv t ih =>
    obtain ⟨k1, v1⟩ := kv
    by_cases h : k1 = k
    · simp [assocGet, h]
    · simp [assocGet, h, ih]

theorem getAttr_removeAttr_same (n : DomNode) (name : String) :
    (n.removeAttr name).getAttr name = none := by
  cases n with
  | element tag attrs children =>
    simp [DomNode.removeAttr, DomNode.getAttr, attrsGet_attrsRemove_same]
  | text s => simp [DomNode.removeAttr, DomNode.getAttr]

theorem register_fresh (st : MState) (A : Component)
    (h : assocGet st.components A.id = none) :
    (register (.comp A) st).1 = true ∧
    (register (.comp A) st).2.components = st.components ++ [(A.id, A)] ∧
    (register (.comp A) st).2.categories =
      addToSet st.categories (if A.category = "" then "General" else A.category) := by
  refine ⟨?_, ?_, ?_⟩ <;>
    simp only [register, h, Option.isSome_none, Bool.false_eq_true, if_false] <;>
    first
      | rfl
      | (split <;> rfl)

/-- C10: `register` accepts only `Component` instances — any other
argument, whatever fields it carries, yields a logged error and `false`,
with the registry, category set and injected styles untouched. -/
theorem register_rejects_non_component (st : MState) (fields : List (String × String)) :
    (register (.plain fields) st).1 = false ∧
    (register (.plain fields) st).2.components = st.components ∧
    (register (.plain fields) st).2.categories = st.categories ∧
    (register (.plain fields) st).2.editorStyles = st.editorStyles ∧
    (register (.plain fields) st).2.console =
      st.console ++ [.error "Can only register instances of Component"] :=
  ⟨rfl, rfl, rfl, rfl, rfl⟩

/-- C5: registering a second definition with an already-registered id
fails with a warning and leaves the registry entry, the category set and
the injected styles exactly as the first registration left them;
`getComponent` still returns the first definition. -/
theorem register_duplicate_id_atomic_failure (st : MState) (A B : Component)
    (hid : B.id = A.id) (hfresh : assocGet st.components A.id = none) :
    (register (.comp A) st).1 = true ∧
    (register (.comp B) (register (.comp A) st).2).1 = false ∧
    (register (.comp B) (register (.comp A) st).2).2.components =
      (register (.comp A) st).2.components ∧
    (register (.comp B) (register (.comp A) st).2).2.categories =
      (register (.comp A) st).2.categories ∧
    (register (.comp B) (register (.comp A) st).2).2.editorStyles =
      (register (.comp A) st).2.editorStyles ∧
    getComponent (register (.comp B) (register (.comp A) st).2).2 A.id = some A := by
  obtain ⟨h1, h2, -⟩ := register_fresh st A hfresh
  set st1 := (register (.comp A) st).2 with hst1
  have hlook : assocGet st1.components A.id = some A := by
    rw [h2, assocGet_append, hfresh]
    simp [assocGet]
  have hdup : (assocGet st1.components B.id).isSome = true := by
    rw [hid, hlook]
    rfl
  have hreg : register (.comp B) st1 =
      (false, pushWarn st1
        ("Component with ID \"" ++ B.id ++ "\" is already registered")) := by
    simp only [register, hdup, if_true]
  refine ⟨h1, ?_, ?_, ?_, ?_, ?_⟩ <;> rw [hreg] <;>
    first
      | rfl
      | exact hlook

/-- C3 counterexample: a definition missing its required `id` throws an
`Error` out of the registration path instead of reporting a boolean
failure. -/
theorem registration_missing_field_throws :
    registerDefinition cfgMissingId {} =
      .error (.error "Component requires id, name, and content") := rfl

/-- C3 (amended): `register` itself never throws — a non-`Component`
argument or a duplicate id produces a logged error/warning and `false`
without mutating the registry — and a definition with truthy `id`,
`name` and `content` completes the construct-and-register path without
an exception; but a definition missing one of those fields throws at
`Component` construction (see the counterexample). -/
theorem registration_error_reporting (st : MState) :
    (∀ fields : List (String × String),
      register (.plain fields) st =
        (false, pushError st "Can only register instances of Component")) ∧
    (∀ c : Component, (assocGet st.components c.id).isSome = true →
      register (.comp c) st =
        (false, pushWarn st
          ("Component with ID \"" ++ c.id ++ "\" is already registered"))) ∧
    (∀ cfg : ComponentConfig,
      (strTruthy cfg.id && strTruthy cfg.name && cfg.content.isSome) = true →
      ∃ ok st1, registerDefinition cfg st = .ok (ok, st1)) := by
  refine ⟨fun fields => rfl, fun c hdup => ?_, fun cfg hvalid => ?_⟩
  · simp only [register, hdup, if_true]
  · refine ⟨(register (.comp (buildComponent cfg)) st).1,
      (register (.comp (buildComponent cfg)) st).2, ?_⟩
    simp only [registerDefinition, Component.construct, hvalid, if_true, Except.map]

theorem registration_error_reporting_witness :
    register (.plain [("id", "ghost"), ("name", "Ghost"), ("content", "div")]) {} =
      (false, pushError {} "Can only register instances of Component") ∧
    register (.comp alertComp) stDropScenario =
      (false, pushWarn stDropScenario
        ("Component with ID \"" ++ alertComp.id ++ "\" is already registered")) ∧
    (∃ ok st1, registerDefinition cfgAlert {} = .ok (ok, st1)) :=
  ⟨(registration_error_reporting {}).1 _,
   (registration_error_reporting stDropScenario).2.1 alertComp rfl,
   (registration_error_reporting {}).2.2 cfgAlert rfl⟩

theorem register_duplicate_id_atomic_failure_witness :
    (register (.comp alertComp) {}).1 = true ∧
    (register (.comp (buildComponent cfgAlertClone)) (register (.comp alertComp) {}).2).1
      = false ∧
    getComponent
      (register (.comp (buildComponent cfgAlertClone)) (register (.comp alertComp) {}).2).2
      alertComp.id = some alertComp := by
  obtain ⟨h1, h2, -, -, -, h6⟩ :=
    register_duplicate_id_atomic_failure {} alertComp (buildComponent cfgAlertClone) rfl rfl
  exact ⟨h1, h2, h6⟩

theorem readProp_single_some (el : DomNode) (name : String) (pd : PropDef) (v : String)
    (h : el.getAttr ("data-prop-" ++ name) = some v) :
    getPropertiesFromElement el [(name, pd)] = [(name, coerceRead pd v)] := by
  simp [getPropertiesFromElement, h]

theorem readProp_single_none (el : DomNode) (name : String) (pd : PropDef)
    (h : el.getAttr ("data-prop-" ++ name) = none) :
    getPropertiesFromElement el [(name, pd)] = [(name, pd.default)] := by
  simp [getPropertiesFromElement, h]

/-- C2 counterexample: against a descriptor whose numeric schema default
is `5`, writing the number `0` and reading back yields `5`, not `0` (the
`parseFloat(value) || default` coercion treats the stored `"0"` as
falsy), contradicting the claimed round trip at the claim's own example
value. -/
theorem property_write_read_zero_counterexample :
    getPropertiesFromElement
        (savePropertyToElement (.element "div" [] []) "level" (.num 0))
        [("level", { default := .num 5 })] = [("level", .num 5)] ∧
    JsPrim.num 5 ≠ JsPrim.num 0 :=
  ⟨rfl, by decide⟩

/-- C2 (amended): the write/read round trip holds for every value whose
stored string form is truthy under the read coercion — nonzero numbers,
both booleans, nonempty strings — and writing `null` reads back the
schema default; but the falsy values `0` and `""` (the claim's own
examples) read back as the schema default instead of themselves. -/
theorem property_write_read_round_trip (el : DomNode) (helem : el.isElement = true)
    (name : String) (pd : PropDef) :
    (∀ d n : Int, pd.default = .num d → n ≠ 0 →
      getPropertiesFromElement (savePropertyToElement el name (.num n)) [(name, pd)]
        = [(name, .num n)]) ∧
    (∀ b c : Bool, pd.default = .boolean b →
      getPropertiesFromElement (savePropertyToElement el name (.boolean c)) [(name, pd)]
        = [(name, .boolean c)]) ∧
    (∀ s t : String, pd.default = .str s → t ≠ "" →
      getPropertiesFromElement (savePropertyToElement el name (.str t)) [(name, pd)]
        = [(name, .str t)]) ∧
    (getPropertiesFromElement (savePropertyToElement el name .nullv) [(name, pd)]
        = [(name, pd.default)]) ∧
    (∀ d : Int, pd.default = .num d →
      getPropertiesFromElement (savePropertyToElement el name (.num 0)) [(name, pd)]
        = [(name, .num d)]) ∧
    (∀ s : String, pd.default = .str s →
      getPropertiesFromElement (savePropertyToElement el name (.str "")) [(name, pd)]
        = [(name, .str s)]) := by
  refine ⟨?_, ?_, ?_, ?_, ?_, ?_⟩
  · intro d n hd hn
    have hget : (savePropertyToElement el name (.num n)).getAttr ("data-prop-" ++ name)
        = some (intToString n) := getAttr_setAttr_same el _ _ helem
    rw [readProp_single_some _ _ _ _ hget]
    simp only [coerceRead, hd, jsParseFloat_intToString, if_neg hn]
  · intro b c hd
    have hget : (savePropertyToElement el name (.boolean c)).getAttr ("data-prop-" ++ name)
        = some (jsString (.boolean c)) := getAttr_setAttr_same el _ _ helem
    rw [readProp_single_some _ _ _ _ hget]
    cases c <;> simp [coerceRead, hd, jsString]
  · intro s t hd ht
    have hget : (savePropertyToElement el name (.str t)).getAttr ("data-prop-" ++ name)
        = some t := getAttr_setAttr_same el _ _ helem
    rw [readProp_single_some _ _ _ _ hget]
    simp only [coerceRead, hd]
    rw [if_pos ht]
  · have hget : (savePropertyToElement el name .nullv).getAttr ("data-prop-" ++ name)
        = none := getAttr_removeAttr_same el _
    rw [readProp_single_none _ _ _ hget]
  · intro d hd
    have hget : (savePropertyToElement el name (.num 0)).getAttr ("data-prop-" ++ name)
        = some (intToString 0) := getAttr_setAttr_same el _ _ helem
    rw [readProp_single_some _ _ _ _ hget]
    simp [coerceRead, hd, jsParseFloat_intToString]
  · intro s hd
    have hget : (savePropertyToElement el name (.str "")).getAttr ("data-prop-" ++ name)
        = some "" := getAttr_setAttr_same el _ _ helem
    rw [readProp_single_some _ _ _ _ hget]
    by_cases hs : s = ""
    · subst hs
      simp [coerceRead, hd, jsTruthy]
    · simp [coerceRead, hd, jsTruthy, hs]

theorem property_write_read_round_trip_witness :
    getPropertiesFromElement
        (savePropertyToElement (.element "div" [] []) "level" (.num 7))
        [("level", { default := .num 5 })] = [("level", .num 7)] ∧
    getPropertiesFromElement
        (savePropertyToElement (.element "div" [] []) "labelText" .nullv)
        [("labelText", { default := .str "Hi" })] = [("labelText", .str "Hi")] :=
  ⟨(property_write_read_round_trip (.element "div" [] []) rfl "level"
      { default := .num 5 }).1 5 7 rfl (by decide),
   (property_write_read_round_trip (.element "div" [] []) rfl "labelText"
      { default := .str "Hi" }).2.2.2.1⟩

/-- C4 (code bug): `getFilteredHtml` never returns any markup — its
selector list contains `[data-prop-*]`, which is not a valid CSS
selector, so the `querySelectorAll` call throws a `SyntaxError` on every
document before any attribute stripping happens. -/
theorem filtered_output_selector_throws (doc : List DomNode) :
    getFilteredHtml doc =
      .error (.syntaxError
        ("Failed to execute querySelectorAll on Element: '" ++
          filteredHtmlSelector ++ "' is not a valid selector")) := rfl

theorem assocGet_mem {α : Type} (l : List (String × α)) (k : String) (v : α)
    (h : assocGet l k = some v) : (k, v) ∈ l := by
  induction l with
  | nil => simp [assocGet] at h
  | cons kv t ih =>
    obtain ⟨k1, v1⟩ := kv
    by_cases hk : k1 = k
    · subst hk
      simp [assocGet] at h
      subst h
      exact List.mem_cons_self _ _
    · simp [assocGet, hk] at h
      exact List.mem_cons_of_mem _ (ih h)

theorem assocGet_self_of_nodup {α : Type} (l : List (String × α))
    (hnodup : (l.map Prod.fst).Nodup) :
    ∀ kv ∈ l, assocGet l kv.1 = some kv.2 := by
  induction l with
  | nil => simp
  | cons p t ih =>
    obtain ⟨k1, v1⟩ := p
    simp only [List.map_cons, List.nodup_cons] at hnodup
    intro kv hkv
    rcases List.mem_cons.mp hkv with h1 | h2
    · subst h1
      simp [assocGet]
    · have hk : kv.1 ≠ k1 := by
        intro hcontra
        exact hnodup.1 (hcontra ▸ List.mem_map_of_mem Prod.fst h2)
      have hk2 : ¬ (k1 = kv.1) := fun hcc => hk (Eq.symm hcc)
      simp only [assocGet, if_neg hk2]
      exact ih hnodup.2 kv h2

theorem find?_name_eq {α : Type} (l : List (String × α)) (q : String × α → Bool)
    (N : String) (hex : ∃ v, (N, v) ∈ l ∧ q (N, v) = true)
    (hfirst : ∀ p ∈ l, q p = true → p.1 = N) :
    (l.find? q).map (·.1) = some N := by
  induction l with
  | nil => simp at hex
  | cons p t ih =>
    by_cases hq : q p = true
    · rw [List.find?_cons_of_pos _ hq]
      simp [hfirst p (List.mem_cons_self _ _) hq]
    · rw [List.find?_cons_of_neg _ (by simp [hq])]
      obtain ⟨v, hmem, hv⟩ := hex
      rcases List.mem_cons.mp hmem with h1 | h2
      · rw [← h1] at hq
        exact absurd hv hq
      · exact ih ⟨v, h2, hv⟩ (fun p2 hp2 hq2 => hfirst p2 (List.mem_cons_of_mem _ hp2) hq2)

theorem stylesMatch_refl (s : List (String × String))
    (hnodup : (s.map Prod.fst).Nodup) : stylesMatch s s = true := by
  unfold stylesMatch
  refine (Bool.and_eq_true _ _).mpr ⟨by simp, ?_⟩
  rw [List.all_eq_true]
  intro kv hkv
  rw [assocGet_self_of_nodup s hnodup kv hkv]
  simp

/-- C9 counterexample: with two registered styles `"primary"` and
`"accent"` carrying identical declarations, `applyStyle("accent", el)`
succeeds, yet `getCurrentStyle` immediately afterwards classifies the
element as `"primary"` — the first matching registered name — not the
applied name `"accent"`. -/
theorem style_classify_duplicate_counterexample :
    (applyStyle stTwinStyles "accent" (some [])).1 = true ∧
    (applyStyle stTwinStyles "accent" (some [])).2.1 = some [("color", "red")] ∧
    (applyStyle stTwinStyles "accent" (some [])).2.2.styles = stTwinStyles.styles ∧
    getCurrentStyle (applyStyle stTwinStyles "accent" (some [])).2.2
      (applyStyle stTwinStyles "accent" (some [])).2.1 = some "primary" ∧
    (some "primary" : Option String) ≠ some "accent" :=
  ⟨rfl, rfl, rfl, rfl, by decide⟩

/-- C9 (amended): applying a registered style and then `removeStyles`
always leaves the element with an empty inline declaration set; and
`getCurrentStyle` right after `applyStyle(N)` returns the *first*
registered name whose declarations match — which is `N` itself whenever
no earlier-registered style has the same declaration set (in particular
whenever registered declaration sets are pairwise distinct). -/
theorem style_apply_remove_classify (st : MState) (N : String)
    (sty decls : List (String × String))
    (hN : assocGet st.styles N = some sty)
    (hnodup : (sty.map Prod.fst).Nodup)
    (hfirst : ∀ p ∈ st.styles, stylesMatch p.2 sty = true → p.1 = N) :
    (applyStyle st N (some decls)).1 = true ∧
    (applyStyle st N (some decls)).2.1 = some sty ∧
    getCurrentStyle (applyStyle st N (some decls)).2.2
      (applyStyle st N (some decls)).2.1 = some N ∧
    (∀ (st2 : MState) (decls2 : List (String × String)),
      (removeStyles st2 (some decls2)).1 = some []) := by
  have happ : applyStyle st N (some decls) =
      (true, some sty, pushEvent st (.styleUpdated (some N) (styleToCss sty))) := by
    simp only [applyStyle, hN]
  refine ⟨by rw [happ], by rw [happ], ?_, fun st2 decls2 => rfl⟩
  rw [happ]
  show (((pushEvent st (.styleUpdated (some N) (styleToCss sty))).styles.find?
      (fun ns => stylesMatch ns.2 sty)).map (·.1)) = some N
  have hstyles : (pushEvent st (.styleUpdated (some N) (styleToCss sty))).styles
      = st.styles := rfl
  rw [hstyles]
  exact find?_name_eq st.styles (fun ns => stylesMatch ns.2 sty) N
    ⟨sty, assocGet_mem _ _ _ hN, stylesMatch_refl sty hnodup⟩
    (fun p hp hq => hfirst p hp hq)

theorem style_apply_remove_classify_witness :
    (applyStyle (addStyle {} "primary" [("color", "red")]) "primary"
      (some [])).1 = true ∧
    getCurrentStyle
      (applyStyle (addStyle {} "primary" [("color", "red")]) "primary" (some [])).2.2
      (applyStyle (addStyle {} "primary" [("color", "red")]) "primary" (some [])).2.1
      = some "primary" ∧
    (removeStyles {} (some [("color", "red")])).1 = some [] := by
  obtain ⟨h1, -, h3, h4⟩ :=
    style_apply_remove_classify (addStyle {} "primary" [("color", "red")])
      "primary" [("color", "red")] [] rfl (by decide) (by decide)
  exact ⟨h1, h3, h4 {} [("color", "red")]⟩

/-- C1 (code bug): the `Component` constructor discards the `allowed`
rules that the catalog's own configurations declare (it always assigns
the empty collection), so the slot allow-rule is never consulted: with
the catalog's `button-group` (declared rule `default -> "button"`)
registered, dropping the `alert` component onto the `default` slot is
*accepted* via the candidate's always-true `restriction`, although the
declared rule excludes it and the claim requires rejection. -/
theorem placement_allowed_rule_dropped :
    cfgButtonGroup.allowed = some [("default", .str "button")] ∧
    Component.construct cfgButtonGroup = .ok buttonGroupComp ∧
    buttonGroupComp.allowed = [] ∧
    getComponent stDropScenario "button-group" = some buttonGroupComp ∧
    bgSlotLocated.node.hasAttr "data-component-children" = true ∧
    alertComp.restriction bgSlotLocated = true ∧
    alertComp.id ≠ "button" ∧
    isValidDropTarget stDropScenario bgSlotLocated (some alertComp) = true :=
  ⟨rfl, rfl, rfl, rfl, rfl, rfl, by decide, rfl⟩

/-- C8 (code bug): the `Component` constructor never stores a configured
`onFocus` callback (the field is absent from the constructed
definition), so selecting a live instance of a definition constructed
with `onFocus` does not invoke it — the selection state is updated but
no `onFocus` invocation is recorded.  Moreover, with no previous
selection, the unguarded `this.selectedElement.isEqualNode(element)`
read throws internally and the selection is not updated at all. -/
theorem select_element_onfocus_dropped :
    cfgFocusCard.onFocus = some "wireLayers" ∧
    Component.construct cfgFocusCard = .ok focusCardComp ∧
    focusCardComp.onFocus = none ∧
    getComponent stFocusSelected "focus-card" = some focusCardComp ∧
    stFocusSelected.selectedElement = some plainP ∧
    focusCardEl.hasAttr "data-component" = true ∧
    (selectElement stFocusSelected (some focusCardEl)).selectedElement
      = some focusCardEl ∧
    (selectElement stFocusSelected (some focusCardEl)).events
      = stFocusSelected.events ∧
    stFocusBase.selectedElement = none ∧
    (selectElement stFocusBase (some focusCardEl)).selectedElement = none :=
  ⟨rfl, rfl, rfl, rfl, rfl, rfl, rfl, rfl, rfl, rfl⟩

/-! ## Lemmas about the instantiation engine -/

theorem string_data_inj {a b : String} (h : a.data = b.data) : a = b :=
  congrArg String.mk h

theorem dataProp_append_inj {k1 k2 : String}
    (h : "data-prop-" ++ k1 = "data-prop-" ++ k2) : k1 = k2 := by
  have hd : "data-prop-".data ++ k1.data = "data-prop-".data ++ k2.data := by
    have h2 := congrArg String.data h
    rwa [String.data_append, String.data_append] at h2
  exact string_data_inj (List.append_cancel_left hd)

/-- No `data-prop-<name>` attribute collides with a string whose sixth
character is not `p`. -/
theorem dataProp_append_ne (k t : String) (hch : t.data[5]? ≠ some 'p') :
    ("data-prop-" ++ k) ≠ t := by
  intro heq
  apply hch
  have hd := congrArg String.data heq
  rw [String.data_append] at hd
  have h5 : ("data-prop-".data ++ k.data)[5]? = some 'p' := by
    rw [List.getElem?_append_left (by decide)]
    decide
  rw [← hd, h5]

theorem dataProp_ne_dataComponent (k : String) :
    ("data-prop-" ++ k) ≠ "data-component" :=
  dataProp_append_ne k _ (by decide)

theorem dataProp_ne_dataInstanceId (k : String) :
    ("data-prop-" ++ k) ≠ "data-instance-id" :=
  dataProp_append_ne k _ (by decide)

theorem dataProp_ne_draggable (k : String) :
    ("data-prop-" ++ k) ≠ "draggable" :=
  dataProp_append_ne k _ (by decide)

theorem setAttr_isElement (n : DomNode) (a v : String)
    (h : n.isElement = true) : (n.setAttr a v).isElement = true := by
  cases n with
  | element tag attrs children => rfl
  | text s => simp [DomNode.isElement] at h

theorem firstElementChild_isElement :
    ∀ (l : List DomNode) (n : DomNode), firstElementChild l = some n →
      n.isElement = true := by
  intro l
  induction l with
  | nil => intro n h; simp [firstElementChild] at h
  | cons x xs ih =>
    intro n h
    by_cases hx : x.isElement = true
    · simp [firstElementChild, hx] at h
      exact h ▸ hx
    · simp only [firstElementChild, Bool.not_eq_true] at h hx
      rw [hx] at h
      simp only [Bool.false_eq_true, if_false] at h
      exact ih n h

theorem fillNode_element_shape (inst : MState → Component → Option DomNode × MState)
    (spec : List (String × SlotCfg)) (tag : String) (attrs : List (String × String))
    (kids : List DomNode) (st : MState) :
    ∃ kids2 st2,
      fillNode inst spec (.element tag attrs kids) st = (.element tag attrs kids2, st2) := by
  rw [fillNode]
  exact ⟨_, _, rfl⟩

theorem addChildComponents_element_shape
    (inst : MState → Component → Option DomNode × MState)
    (spec : List (String × SlotCfg)) (tag : String) (attrs : List (String × String))
    (kids : List DomNode) (st : MState) :
    ∃ kids2 st2,
      addChildComponents inst spec (.element tag attrs kids) st
        = (.element tag attrs kids2, st2) :=
  ⟨_, _, rfl⟩

/-- `writeDataProps` leaves every attribute that is not a written
`data-prop-<key>` untouched. -/
theorem writeDataProps_getAttr_other :
    ∀ (props : List (String × PropDef)) (r : DomNode) (a : String),
    (∀ kp ∈ props, a ≠ "data-prop-" ++ kp.1) →
    (writeDataProps props r).getAttr a = r.getAttr a := by
  intro props
  induction props with
  | nil => intro r a h; rfl
  | cons kp rest ih =>
    intro r a h
    have hstep : writeDataProps (kp :: rest) r = writeDataProps rest
        (match propCurrent kp.2 with
         | .undef => r
         | v => r.setAttr ("data-prop-" ++ kp.1) (jsString v)) := rfl
    rw [hstep]
    rw [ih _ a (fun kp2 h2 => h kp2 (List.mem_cons_of_mem _ h2))]
    cases hv : propCurrent kp.2 with
    | undef => rfl
    | num m =>
      exact getAttr_setAttr_other r _ _ _ (h kp (List.mem_cons_self _ _))
    | str s =>
      exact getAttr_setAttr_other r _ _ _ (h kp (List.mem_cons_self _ _))
    | boolean b =>
      exact getAttr_setAttr_other r _ _ _ (h kp (List.mem_cons_self _ _))
    | nullv =>
      exact getAttr_setAttr_other r _ _ _ (h kp (List.mem_cons_self _ _))

theorem writeDataProps_isElement :
    ∀ (props : List (String × PropDef)) (r : DomNode),
    r.isElement = true → (writeDataProps props r).isElement = true := by
  intro props
  induction props with
  | nil => intro r h; exact h
  | cons kp rest ih =>
    intro r h
    have hstep : writeDataProps (kp :: rest) r = writeDataProps rest
        (match propCurrent kp.2 with
         | .undef => r
         | v => r.setAttr ("data-prop-" ++ kp.1) (jsString v)) := rfl
    rw [hstep]
    apply ih
    cases hv : propCurrent kp.2 with
    | undef => exact h
    | num m => exact setAttr_isElement r _ _ h
    | str s => exact setAttr_isElement r _ _ h
    | boolean b => exact setAttr_isElement r _ _ h
    | nullv => exact setAttr_isElement r _ _ h

/-- Every schema property with a non-`undefined` current value is
readable back from the stamped element. -/
theorem writeDataProps_getAttr_mem :
    ∀ (props : List (String × PropDef)) (r : DomNode),
    r.isElement = true → (props.map Prod.fst).Nodup →
    ∀ kp ∈ props, propCurrent kp.2 ≠ .undef →
    (writeDataProps props r).getAttr ("data-prop-" ++ kp.1)
      = some (jsString (propCurrent kp.2)) := by
  intro props
  induction props with
  | nil => intro r _ _ kp h; simp at h
  | cons kp0 rest ih =>
    intro r helem hnodup kp hmem hundef
    simp only [List.map_cons, List.nodup_cons] at hnodup
    have hstep : writeDataProps (kp0 :: rest) r = writeDataProps rest
        (match propCurrent kp0.2 with
         | .undef => r
         | v => r.setAttr ("data-prop-" ++ kp0.1) (jsString v)) := rfl
    rcases List.mem_cons.mp hmem with h1 | h2
    · subst h1
      rw [hstep]
      rw [writeDataProps_getAttr_other rest _ _ ?hne]
      case hne =>
        intro kp2 h2 heq
        exact hnodup.1 (dataProp_append_inj heq ▸ List.mem_map_of_mem Prod.fst h2)
      cases hv : propCurrent kp.2 with
      | undef => exact absurd hv hundef
      | num m => exact getAttr_setAttr_same r _ _ helem
      | str s => exact getAttr_setAttr_same r _ _ helem
      | boolean b => exact getAttr_setAttr_same r _ _ helem
      | nullv => exact getAttr_setAttr_same r _ _ helem
    · rw [hstep]
      apply ih _ ?helem2 hnodup.2 kp h2 hundef
      case helem2 =>
        cases hv : propCurrent kp0.2 with
        | undef => exact helem
        | num m => exact setAttr_isElement r _ _ helem
        | str s => exact setAttr_isElement r _ _ helem
        | boolean b => exact setAttr_isElement r _ _ helem
        | nullv => exact setAttr_isElement r _ _ helem

/-- Reading back the string form of a defined schema default yields the
default itself, under the read coercion. -/
theorem coerceRead_jsString_default (pd : PropDef)
    (h : isDefinedDefault pd.default = true) :
    coerceRead pd (jsString pd.default) = pd.default := by
  cases hd : pd.default with
  | num d =>
    simp only [coerceRead, hd, jsString, jsParseFloat_intToString]
    by_cases h0 : d = 0
    · subst h0
      simp
    · simp [h0]
  | str s =>
    simp only [coerceRead, hd, jsString]
    by_cases hs : s = ""
    · subst hs
      simp [jsTruthy]
    · simp [hs]
  | boolean b => cases b <;> simp [coerceRead, hd, jsString]
  | nullv => simp [isDefinedDefault, hd] at h
  | undef => simp [isDefinedDefault, hd] at h

theorem propCurrent_of_value_none (p : PropDef) (h : p.value = none) :
    propCurrent p = p.default := by
  simp [propCurrent, h]

theorem definedDefault_ne_undef {v : JsPrim} (h : isDefinedDefault v = true) :
    v ≠ .undef := by
  cases v <;> simp [isDefinedDefault] at h ⊢

theorem addChildComponents_getAttr
    (inst : MState → Component → Option DomNode × MState)
    (spec : List (String × SlotCfg)) (n : DomNode) (st : MState) (a : String) :
    (addChildComponents inst spec n st).1.getAttr a = n.getAttr a := by
  cases n with
  | text s => rfl
  | element tag attrs kids =>
    obtain ⟨k2, s2, h⟩ := addChildComponents_element_shape inst spec tag attrs kids st
    rw [h]
    rfl

/-- C6: a freshly instantiated component with defined schema defaults and
no edited values reads back exactly its schema defaults through
`_getPropertiesFromElement`. -/
theorem insert_reads_back_defaults (st : MState) (c : Component) (fuel : Nat)
    (root : DomNode) (st2 : MState)
    (hdef : ∀ kp ∈ c.properties, isDefinedDefault kp.2.default = true ∧ kp.2.value = none)
    (hnodup : (c.properties.map Prod.fst).Nodup)
    (hrun : instantiate (fuel + 1) st c = (some root, st2)) :
    getPropertiesFromElement root c.properties
      = c.properties.map (fun kp => (kp.1, kp.2.default)) := by
  simp only [instantiate] at hrun
  rcases hfe : firstElementChild
      (c.content (c.properties.map (fun kp => (kp.1, propCurrent kp.2)))) with _ | rootElement
  · rw [hfe] at hrun
    simp at hrun
  · rw [hfe] at hrun
    simp only [Prod.mk.injEq, Option.some.injEq] at hrun
    obtain ⟨hroot, -⟩ := hrun
    have helem0 : rootElement.isElement = true :=
      firstElementChild_isElement _ _ hfe
    have helem1 : ((rootElement.setAttr "data-component" c.id).setAttr "data-instance-id"
        (mkInstanceId st.nextId)).isElement = true :=
      setAttr_isElement _ _ _ (setAttr_isElement _ _ _ helem0)
    have hattr : ∀ kp ∈ c.properties,
        root.getAttr ("data-prop-" ++ kp.1) = some (jsString kp.2.default) := by
      intro kp hkp
      have hcur : propCurrent kp.2 = kp.2.default :=
        propCurrent_of_value_none kp.2 (hdef kp hkp).2
      have hundef : propCurrent kp.2 ≠ .undef := by
        rw [hcur]
        exact definedDefault_ne_undef (hdef kp hkp).1
      rw [← hroot]
      rw [getAttr_setAttr_other _ _ _ _ (dataProp_ne_draggable kp.1)]
      rw [addChildComponents_getAttr]
      rw [writeDataProps_getAttr_mem c.properties _ helem1 hnodup kp hkp hundef]
      rw [hcur]
    unfold getPropertiesFromElement
    apply List.map_congr_left
    intro kp hkp
    rw [hattr kp hkp]
    show (kp.1, coerceRead kp.2 (jsString kp.2.default)) = (kp.1, kp.2.default)
    rw [coerceRead_jsString_default kp.2 (hdef kp hkp).1]

theorem insert_reads_back_defaults_witness :
    ∃ root st2, instantiate 1 {} gaugeComp = (some root, st2) ∧
      getPropertiesFromElement root gaugeComp.properties
        = gaugeComp.properties.map (fun kp => (kp.1, kp.2.default)) := by
  obtain ⟨root, hroot⟩ : ∃ r, (instantiate 1 {} gaugeComp).1 = some r := ⟨_, rfl⟩
  refine ⟨root, (instantiate 1 {} gaugeComp).2, ?_, ?_⟩
  · rw [← hroot]
  · exact insert_reads_back_defaults {} gaugeComp 0 root _ (by decide) (by decide)
      (by rw [← hroot])

/-! ## Lemmas for the slot-fill claim -/

theorem mkInstanceId_injective : Function.Injective mkInstanceId := by
  intro m n h
  have hd : "comp-".data ++ (natToString m).data = "comp-".data ++ (natToString n).data := by
    have h2 := congrArg String.data h
    rwa [mkInstanceId, mkInstanceId, String.data_append, String.data_append] at h2
  exact natToString_injective (string_data_inj (List.append_cancel_left hd))

theorem writeDataProps_element_shape :
    ∀ (props : List (String × PropDef)) (tag : String)
      (attrs : List (String × String)) (kids : List DomNode),
    ∃ attrs2, writeDataProps props (.element tag attrs kids) = .element tag attrs2 kids := by
  intro props
  induction props with
  | nil => intro tag attrs kids; exact ⟨attrs, rfl⟩
  | cons kp rest ih =>
    intro tag attrs kids
    have hstep : writeDataProps (kp :: rest) (DomNode.element tag attrs kids)
        = writeDataProps rest
          (match propCurrent kp.2 with
           | .undef => DomNode.element tag attrs kids
           | v => (DomNode.element tag attrs kids).setAttr
               ("data-prop-" ++ kp.1) (jsString v)) := rfl
    rw [hstep]
    cases propCurrent kp.2 with
    | undef => exact ih tag attrs kids
    | num m => exact ih tag _ kids
    | str s => exact ih tag _ kids
    | boolean b => exact ih tag _ kids
    | nullv => exact ih tag _ kids

theorem insertChildFills_state (inst : MState → Component → Option DomNode × MState)
    (hinst : ∀ (st1 : MState) (c1 : Component),
      st1.nextId ≤ ((inst st1 c1).2).nextId ∧ ((inst st1 c1).2).components = st1.components)
    (xc : Component) :
    ∀ (count : Nat) (acc : List DomNode × List DomNode) (st : MState),
    st.nextId ≤ ((insertChildFills inst xc count acc st).2).nextId ∧
    ((insertChildFills inst xc count acc st).2).components = st.components := by
  intro count
  induction count with
  | zero => intro acc st; exact ⟨le_refl _, rfl⟩
  | succ k ih =>
    intro acc st
    rcases hstep : inst st xc with ⟨rootOpt, st1⟩
    have hmono := hinst st xc
    rw [hstep] at hmono
    cases rootOpt with
    | some root =>
      have h2 := ih (scrubList acc.1, acc.2 ++ [root]) st1
      refine ⟨?_, ?_⟩ <;> simp only [insertChildFills, hstep]
      · exact le_trans hmono.1 h2.1
      · exact h2.2.trans hmono.2
    | none =>
      have h2 := ih acc st1
      refine ⟨?_, ?_⟩ <;> simp only [insertChildFills, hstep]
      · exact le_trans hmono.1 h2.1
      · exact h2.2.trans hmono.2

theorem fillFromId_state (inst : MState → Component → Option DomNode × MState)
    (hinst : ∀ (st1 : MState) (c1 : Component),
      st1.nextId ≤ ((inst st1 c1).2).nextId ∧ ((inst st1 c1).2).components = st1.components)
    (id : String) (count : Nat) (acc : List DomNode × List DomNode) (st : MState) :
    st.nextId ≤ ((fillFromId inst id count acc st).2).nextId ∧
    ((fillFromId inst id count acc st).2).components = st.components := by
  unfold fillFromId
  rcases getComponent st id with _ | c
  · exact ⟨le_refl _, rfl⟩
  · exact insertChildFills_state inst hinst c count acc st

theorem applyEntries_state (inst : MState → Component → Option DomNode × MState)
    (hinst : ∀ (st1 : MState) (c1 : Component),
      st1.nextId ≤ ((inst st1 c1).2).nextId ∧ ((inst st1 c1).2).components = st1.components) :
    ∀ (entries : List (String × ChildEntry)) (acc : List DomNode × List DomNode)
      (st : MState),
    st.nextId ≤ ((applyEntries inst entries acc st).2).nextId ∧
    ((applyEntries inst entries acc st).2).components = st.components := by
  intro entries
  induction entries with
  | nil => intro acc st; exact ⟨le_refl _, rfl⟩
  | cons e rest ih =>
    intro acc st
    obtain ⟨childName, entry⟩ := e
    have hcomp : ∀ step : (List DomNode × List DomNode) × MState,
        st.nextId ≤ step.2.nextId → step.2.components = st.components →
        st.nextId ≤ ((applyEntries inst rest step.1 step.2).2).nextId ∧
        ((applyEntries inst rest step.1 step.2).2).components = st.components := by
      intro step h1 h2
      have h3 := ih step.1 step.2
      exact ⟨le_trans h1 h3.1, h3.2.trans h2⟩
    cases entry with
    | strId id =>
      simp only [applyEntries]
      have h := fillFromId_state inst hinst id 1 acc st
      exact hcomp _ h.1 h.2
    | idCount id count =>
      simp only [applyEntries]
      split
      · have h := fillFromId_state inst hinst id count acc st
        exact hcomp _ h.1 h.2
      · split
        · have h := fillFromId_state inst hinst childName count acc st
          exact hcomp _ h.1 h.2
        · exact hcomp (acc, st) (le_refl _) rfl
    | countOnly count =>
      simp only [applyEntries]
      split
      · have h := fillFromId_state inst hinst childName count acc st
        exact hcomp _ h.1 h.2
      · exact hcomp (acc, st) (le_refl _) rfl

theorem applyCfg_state (inst : MState → Component → Option DomNode × MState)
    (hinst : ∀ (st1 : MState) (c1 : Component),
      st1.nextId ≤ ((inst st1 c1).2).nextId ∧ ((inst st1 c1).2).components = st1.components)
    (cfg : SlotCfg) (kids : List DomNode) (st : MState) :
    st.nextId ≤ ((applyCfg inst cfg kids st).2).nextId ∧
    ((applyCfg inst cfg kids st).2).components = st.components := by
  cases cfg with
  | fill id count clearExisting =>
    simp only [applyCfg]
    split
    · exact fillFromId_state inst hinst id count _ st
    · exact applyEntries_state inst hinst _ _ st
  | multi clearExisting entries =>
    simp only [applyCfg]
    exact applyEntries_state inst hinst entries _ st

mutual
theorem fillNode_state (inst : MState → Component → Option DomNode × MState)
    (hinst : ∀ (st1 : MState) (c1 : Component),
      st1.nextId ≤ ((inst st1 c1).2).nextId ∧ ((inst st1 c1).2).components = st1.components)
    (spec : List (String × SlotCfg)) :
    ∀ (n : DomNode) (st : MState),
    st.nextId ≤ ((fillNode inst spec n st).2).nextId ∧
    ((fillNode inst spec n st).2).components = st.components
  | .text s, st => by
    rw [fillNode]
    exact ⟨le_refl _, rfl⟩
  | .element tag attrs kids, st => by
    rw [fillNode]
    rcases h1 : slotCfgOf spec attrs with _ | cfg
    · exact fillList_state inst hinst spec kids st
    · have ha := applyCfg_state inst hinst cfg kids st
      have hb := fillList_state inst hinst spec
        ((applyCfg inst cfg kids st).1.1) ((applyCfg inst cfg kids st).2)
      exact ⟨le_trans ha.1 hb.1, hb.2.trans ha.2⟩
termination_by n _ => sizeOf n
decreasing_by
  · simp only [DomNode.element.sizeOf_spec]
    omega
  · simp only [DomNode.element.sizeOf_spec]
    have := applyCfg_base_sizeOf_le inst cfg kids st
    omega

theorem fillList_state (inst : MState → Component → Option DomNode × MState)
    (hinst : ∀ (st1 : MState) (c1 : Component),
      st1.nextId ≤ ((inst st1 c1).2).nextId ∧ ((inst st1 c1).2).components = st1.components)
    (spec : List (String × SlotCfg)) :
    ∀ (l : List DomNode) (st : MState),
    st.nextId ≤ ((fillList inst spec l st).2).nextId ∧
    ((fillList inst spec l st).2).components = st.components
  | [], st => by
    rw [fillList]
    exact ⟨le_refl _, rfl⟩
  | n :: ns, st => by
    rw [fillList]
    have ha := fillNode_state inst hinst spec n st
    have hb := fillList_state inst hinst spec ns ((fillNode inst spec n st).2)
    exact ⟨le_trans ha.1 hb.1, hb.2.trans ha.2⟩
termination_by l _ => sizeOf l
decreasing_by
  · simp only [List.cons.sizeOf_spec]
    omega
  · simp only [List.cons.sizeOf_spec]
    omega
end

theorem addChildComponents_state
    (inst : MState → Component → Option DomNode × MState)
    (hinst : ∀ (st1 : MState) (c1 : Component),
      st1.nextId ≤ ((inst st1 c1).2).nextId ∧ ((inst st1 c1).2).components = st1.components)
    (spec : List (String × SlotCfg)) (root : DomNode) (st : MState) :
    st.nextId ≤ ((addChildComponents inst spec root st).2).nextId ∧
    ((addChildComponents inst spec root st).2).components = st.components := by
  cases root with
  | text s => exact ⟨le_refl _, rfl⟩
  | element tag attrs kids =>
    rw [addChildComponents]
    rcases h1 : attrsGet attrs "data-component-children" with _ | containerName
    · exact fillList_state inst hinst spec kids st
    · show st.nextId ≤ (rootContainerFills inst spec containerName kids st).2.nextId ∧
        (rootContainerFills inst spec containerName kids st).2.components = st.components
      unfold rootContainerFills
      rcases h2 : assocGet spec containerName with _ | cfg
      · exact ⟨le_refl _, rfl⟩
      · exact applyCfg_state inst hinst cfg kids st

theorem instantiate_state :
    ∀ (fuel : Nat) (st : MState) (c : Component),
    st.nextId ≤ ((instantiate fuel st c).2).nextId ∧
    ((instantiate fuel st c).2).components = st.components := by
  intro fuel
  induction fuel with
  | zero => intro st c; exact ⟨le_refl _, rfl⟩
  | succ f ih =>
    intro st c
    simp only [instantiate]
    rcases hfe : firstElementChild
        (c.content (c.properties.map (fun kp => (kp.1, propCurrent kp.2)))) with _ | re
    · rw [hfe]
      exact ⟨by simp [pushError], rfl⟩
    · rw [hfe]
      have h := addChildComponents_state (fun st1 c1 => instantiate f st1 c1)
        (fun st1 c1 => ih st1 c1) c.children
        (writeDataProps c.properties
          ((re.setAttr "data-component" c.id).setAttr "data-instance-id"
            (mkInstanceId st.nextId)))
        { st with nextId := st.nextId + 1 }
      have hle : st.nextId ≤ ({ st with nextId := st.nextId + 1 } : MState).nextId :=
        Nat.le_succ st.nextId
      exact ⟨le_trans hle h.1, h.2⟩

/-- A component whose content renders a root element instantiates (at
positive fuel) to a root stamped with its id and the fresh instance-id
token of the incoming state. -/
theorem instantiate_stamp (fuel : Nat) (st : MState) (xc : Component)
    (hxc : (firstElementChild
      (xc.content (xc.properties.map (fun kp => (kp.1, propCurrent kp.2))))).isSome
        = true) :
    ∃ rt st3,
      instantiate (fuel + 1) st xc = (some rt, st3) ∧
      rt.getAttr "data-component" = some xc.id ∧
      rt.getAttr "data-instance-id" = some (mkInstanceId st.nextId) := by
  rcases hfe : firstElementChild
      (xc.content (xc.properties.map (fun kp => (kp.1, propCurrent kp.2)))) with _ | re
  · rw [hfe] at hxc
    simp at hxc
  · have helem : re.isElement = true := firstElementChild_isElement _ _ hfe
    rcases hac : addChildComponents (fun st1 c1 => instantiate fuel st1 c1) xc.children
        (writeDataProps xc.properties
          ((re.setAttr "data-component" xc.id).setAttr "data-instance-id"
            (mkInstanceId st.nextId)))
        { st with nextId := st.nextId + 1 } with ⟨rootMid, stMid⟩
    have hmid : rootMid.getAttr "data-component" = some xc.id ∧
        rootMid.getAttr "data-instance-id" = some (mkInstanceId st.nextId) := by
      have hga1 := addChildComponents_getAttr (fun st1 c1 => instantiate fuel st1 c1)
        xc.children
        (writeDataProps xc.properties
          ((re.setAttr "data-component" xc.id).setAttr "data-instance-id"
            (mkInstanceId st.nextId)))
        { st with nextId := st.nextId + 1 } "data-component"
      have hga2 := addChildComponents_getAttr (fun st1 c1 => instantiate fuel st1 c1)
        xc.children
        (writeDataProps xc.properties
          ((re.setAttr "data-component" xc.id).setAttr "data-instance-id"
            (mkInstanceId st.nextId)))
        { st with nextId := st.nextId + 1 } "data-instance-id"
      rw [hac] at hga1 hga2
      rw [writeDataProps_getAttr_other _ _ _
        (fun kp _ => (dataProp_ne_dataComponent kp.1).symm)] at hga1
      rw [writeDataProps_getAttr_other _ _ _
        (fun kp _ => (dataProp_ne_dataInstanceId kp.1).symm)] at hga2
      rw [getAttr_setAttr_other _ _ _ _ (by decide)] at hga1
      rw [getAttr_setAttr_same _ _ _ (setAttr_isElement re _ _ helem)] at hga2
      rw [getAttr_setAttr_same _ _ _ helem] at hga1
      exact ⟨hga1, hga2⟩
    refine ⟨rootMid.setAttr "draggable" "true",
      pushEvent stMid (.hookOnInsert xc.id (mkInstanceId st.nextId)), ?_, ?_, ?_⟩
    · simp only [instantiate, hfe, hac]
    · rw [getAttr_setAttr_other _ _ _ _ (by decide)]
      exact hmid.1
    · rw [getAttr_setAttr_other _ _ _ _ (by decide)]
      exact hmid.2

/-- A successful (or failed) instantiation at positive fuel always
consumes at least one fresh id. -/
theorem instantiate_succ_nextId (fuel : Nat) (st : MState) (c : Component) :
    st.nextId + 1 ≤ ((instantiate (fuel + 1) st c).2).nextId := by
  simp only [instantiate]
  rcases hfe : firstElementChild
      (c.content (c.properties.map (fun kp => (kp.1, propCurrent kp.2)))) with _ | re
  · rw [hfe]
    simp [pushError]
  · rw [hfe]
    have h := addChildComponents_state (fun st1 c1 => instantiate fuel st1 c1)
      (fun st1 c1 => instantiate_state fuel st1 c1) c.children
      (writeDataProps c.properties
        ((re.setAttr "data-component" c.id).setAttr "data-instance-id"
          (mkInstanceId st.nextId)))
      { st with nextId := st.nextId + 1 }
    exact h.1

/-- C7: instantiating a component whose `children` spec maps slot
`"default"` to `{id: X, count: 3}`, where `X` is registered and renders a
root element, appends exactly 3 child instances of `X` inside the
container marked `data-component-children="default"` (here the
component's own root, as in the catalog's row/group components), each
stamped with its own distinct `data-instance-id`.  The container's
pre-existing children (minus host-editor placeholder `<br>`s) are
preserved in front of the three fills. -/
theorem slot_fill_three_children (st : MState) (c xc : Component) (X : String)
    (fuel : Nat) (tag : String) (attrs : List (String × String)) (kids : List DomNode)
    (hch : c.children = [("default", SlotCfg.fill X 3 false)])
    (hX : X ≠ "")
    (hreg : getComponent st X = some xc)
    (hfe : firstElementChild
      (c.content (c.properties.map (fun kp => (kp.1, propCurrent kp.2))))
      = some (.element tag attrs kids))
    (hslot : attrsGet attrs "data-component-children" = some "default")
    (hxc : (firstElementChild
      (xc.content (xc.properties.map (fun kp => (kp.1, propCurrent kp.2))))).isSome
        = true) :
    ∃ attrs2 base c1 c2 c3 n1 n2 n3 stF,
      instantiate (fuel + 2) st c
        = (some (.element tag attrs2 (base ++ [c1, c2, c3])), stF) ∧
      c1.getAttr "data-component" = some xc.id ∧
      c2.getAttr "data-component" = some xc.id ∧
      c3.getAttr "data-component" = some xc.id ∧
      c1.getAttr "data-instance-id" = some (mkInstanceId n1) ∧
      c2.getAttr "data-instance-id" = some (mkInstanceId n2) ∧
      c3.getAttr "data-instance-id" = some (mkInstanceId n3) ∧
      mkInstanceId n1 ≠ mkInstanceId n2 ∧
      mkInstanceId n1 ≠ mkInstanceId n3 ∧
      mkInstanceId n2 ≠ mkInstanceId n3 := by
  obtain ⟨g, hg⟩ : ∃ g, fuel + 1 = g := ⟨_, rfl⟩
  obtain ⟨rt1, stA1, heq1, hdc1, hdii1⟩ :=
    instantiate_stamp fuel { st with nextId := st.nextId + 1 } xc hxc
  obtain ⟨rt2, stA2, heq2, hdc2, hdii2⟩ := instantiate_stamp fuel stA1 xc hxc
  obtain ⟨rt3, stA3, heq3, hdc3, hdii3⟩ := instantiate_stamp fuel stA2 xc hxc
  have hlt12 : ({ st with nextId := st.nextId + 1 } : MState).nextId < stA1.nextId := by
    have h := instantiate_succ_nextId fuel { st with nextId := st.nextId + 1 } xc
    rw [heq1] at h
    exact h
  have hlt23 : stA1.nextId < stA2.nextId := by
    have h := instantiate_succ_nextId fuel stA1 xc
    rw [heq2] at h
    exact h
  rw [hg] at heq1 heq2 heq3
  have hfills : insertChildFills (fun st1 c1 => instantiate g st1 c1) xc 3
      (kids, []) { st with nextId := st.nextId + 1 }
      = ((scrubList (scrubList (scrubList kids)), [rt1, rt2, rt3]), stA3) := by
    simp only [insertChildFills, heq1, heq2, heq3, List.nil_append, List.cons_append,
      List.append_nil]
  have hreg0 : getComponent { st with nextId := st.nextId + 1 } X = some xc := hreg
  have happly : applyCfg (fun st1 c1 => instantiate g st1 c1)
      (SlotCfg.fill X 3 false) kids { st with nextId := st.nextId + 1 }
      = ((scrubList (scrubList (scrubList kids)), [rt1, rt2, rt3]), stA3) := by
    simp only [applyCfg, if_neg, Bool.false_eq_true, if_false]
    rw [if_pos ⟨hX, by decide⟩]
    simp only [fillFromId, hreg0]
    exact hfills
  obtain ⟨a2, hWD⟩ := writeDataProps_element_shape c.properties tag
    (attrsSet (attrsSet attrs "data-component" c.id) "data-instance-id"
      (mkInstanceId st.nextId)) kids
  have hWD2 : writeDataProps c.properties
      (((DomNode.element tag attrs kids).setAttr "data-component" c.id).setAttr
        "data-instance-id" (mkInstanceId st.nextId)) = .element tag a2 kids := hWD
  have hslot2 : attrsGet a2 "data-component-children" = some "default" := by
    have h := writeDataProps_getAttr_other c.properties
      (((DomNode.element tag attrs kids).setAttr "data-component" c.id).setAttr
        "data-instance-id" (mkInstanceId st.nextId))
      "data-component-children"
      (fun kp _ => (dataProp_append_ne kp.1 _ (by decide)).symm)
    rw [hWD2] at h
    rw [getAttr_setAttr_other _ _ _ _ (by decide),
      getAttr_setAttr_other _ _ _ _ (by decide)] at h
    show (DomNode.element tag a2 kids).getAttr "data-component-children" = some "default"
    rw [h]
    show attrsGet attrs "data-component-children" = some "default"
    exact hslot
  have hlook : assocGet c.children "default" = some (SlotCfg.fill X 3 false) := by
    rw [hch]
    simp [assocGet]
  have hAC : addChildComponents (fun st1 c1 => instantiate g st1 c1)
      c.children (.element tag a2 kids) { st with nextId := st.nextId + 1 }
      = (.element tag a2 (scrubList (scrubList (scrubList kids)) ++ [rt1, rt2, rt3]),
        stA3) := by
    simp only [addChildComponents, hslot2, rootContainerFills, hlook, happly]
  have hmain : instantiate (fuel + 2) st c
      = (some ((DomNode.element tag a2
            (scrubList (scrubList (scrubList kids)) ++ [rt1, rt2, rt3])).setAttr
          "draggable" "true"),
        pushEvent stA3 (.hookOnInsert c.id (mkInstanceId st.nextId))) := by
    show instantiate (fuel + 1 + 1) st c = _
    rw [hg]
    simp only [instantiate, hfe, hWD2, hAC]
  refine ⟨attrsSet a2 "draggable" "true", scrubList (scrubList (scrubList kids)),
    rt1, rt2, rt3,
    ({ st with nextId := st.nextId + 1 } : MState).nextId, stA1.nextId, stA2.nextId,
    pushEvent stA3 (.hookOnInsert c.id (mkInstanceId st.nextId)),
    hmain, hdc1, hdc2, hdc3, hdii1, hdii2, hdii3, ?_, ?_, ?_⟩
  · intro h
    exact absurd (mkInstanceId_injective h) (by omega)
  · intro h
    exact absurd (mkInstanceId_injective h) (by omega)
  · intro h
    exact absurd (mkInstanceId_injective h) (by omega)

theorem slot_fill_three_children_witness :
    ∃ attrs2 base c1 c2 c3 n1 n2 n3 stF,
      instantiate 2 (register (.comp leafComp) {}).2 tripleComp
        = (some (.element "div" attrs2 (base ++ [c1, c2, c3])), stF) ∧
      c1.getAttr "data-component" = some leafComp.id ∧
      c2.getAttr "data-component" = some leafComp.id ∧
      c3.getAttr "data-component" = some leafComp.id ∧
      c1.getAttr "data-instance-id" = some (mkInstanceId n1) ∧
      c2.getAttr "data-instance-id" = some (mkInstanceId n2) ∧
      c3.getAttr "data-instance-id" = some (mkInstanceId n3) ∧
      mkInstanceId n1 ≠ mkInstanceId n2 ∧
      mkInstanceId n1 ≠ mkInstanceId n3 ∧
      mkInstanceId n2 ≠ mkInstanceId n3 :=
  slot_fill_three_children (register (.comp leafComp) {}).2 tripleComp leafComp
    "leaf" 0 "div" [("data-component-children", "default")] [] rfl (by decide)
    rfl rfl rfl rfl

end TinyBS5
